import Mathlib

/-!
Shallow embedding of the core of the voice-translation relay server
(session registry, streaming translation pipeline, utterance gate,
MT client, TTS client) together with proofs about the behaviours the
specification describes.

JavaScript `Map` objects are modelled as insertion-ordered association
lists (`set` updates in place or appends; iteration follows list
order), matching the iteration-order semantics the source relies on.
JavaScript strings are modelled by Lean `String`; `trim`,
`toLowerCase`, `split(/\s+/)`, `includes` and `startsWith` are given
explicit char-list implementations below (ASCII case folding, which is
what every string reaching these code paths uses).  Millisecond clocks
are `Nat`; `Date.now()` values are passed in explicitly.  Fractional
arithmetic (`0.85 * x + 0.15 * y` and friends) is modelled over `ℚ`.
-/

namespace VoiceRelay

/-! ## JavaScript `Map` as an insertion-ordered association list -/

/-- `Map.get`: first binding of the key, in insertion order. -/
def jsGet {α β : Type} [DecidableEq α] (m : List (α × β)) (k : α) :
    Option β :=
  (m.find? (fun kv => kv.1 = k)).map (·.2)

/-- `Map.set`: replace the existing binding in place (keeping its
position in iteration order), else append. -/
def jsSet {α β : Type} [DecidableEq α] :
    List (α × β) → α → β → List (α × β)
  | [], k, v => [(k, v)]
  | kv :: rest, k, v =>
    if kv.1 = k then (k, v) :: rest else kv :: jsSet rest k v

/-- `Map.delete`: remove the binding of the key. -/
def jsDelete {α β : Type} [DecidableEq α] (m : List (α × β)) (k : α) :
    List (α × β) :=
  m.filter (fun kv => ¬ kv.1 = k)

/-! ## JavaScript string primitives -/

/-- The whitespace characters `\s` matches on the inputs this server sees. -/
def isWs (c : Char) : Bool :=
  c = ' ' || c = '\t' || c = '\n' || c = '\r'

/-- `String.prototype.trim`. -/
def jsTrim (s : String) : String :=
  ⟨(s.data.dropWhile isWs).reverse.dropWhile isWs |>.reverse⟩

/-- `String.prototype.toLowerCase` (ASCII case folding). -/
def jsLower (s : String) : String :=
  ⟨s.data.map Char.toLower⟩

theorem dropWhile_len_le (p : Char → Bool) (l : List Char) :
    (l.dropWhile p).length ≤ l.length := by
  induction l with
  | nil => simp [List.dropWhile]
  | cons c cs ih =>
    simp only [List.dropWhile]
    split
    · exact Nat.le_succ_of_le ih
    · exact Nat.le_refl _

/-- Splits into the maximal runs of characters satisfying the
negation of `stop`; `acc` holds the reversed run in progress. -/
def runsAux (stop : Char → Bool) : List Char → List Char →
    List (List Char)
  | [], acc => if acc.isEmpty then [] else [acc.reverse]
  | c :: cs, acc =>
    if stop c then
      if acc.isEmpty then runsAux stop cs []
      else acc.reverse :: runsAux stop cs []
    else runsAux stop cs (c :: acc)

/-- Maximal runs of non-whitespace characters. -/
def wsFields (l : List Char) : List (List Char) :=
  runsAux isWs l []

/-- `text.trim().split(/\s+/).length`: the empty string splits to
`[""]` (length 1), a non-empty trimmed string splits into its
whitespace-separated words. -/
def jsWordCount (s : String) : Nat :=
  let t := jsTrim s
  if t.data.isEmpty then 1 else (wsFields t.data).length

/-- `hay.includes(needle)`. -/
def jsIncludes (hay needle : String) : Bool :=
  hay.data.tails.any (fun t => needle.data.isPrefixOf t)

/-- `hay.startsWith(needle)`. -/
def jsStartsWith (hay needle : String) : Bool :=
  needle.data.isPrefixOf hay.data

/-! ## Streaming translation pipeline
(`streamingTranslationPipeline.js`) -/

/-- The per-user entry in `this.activeSessions`
(`startTranslationSession` builds it; only the fields the modelled
operations read are kept). -/
structure PipeSession where
  sessionId : String
  userId : String
  userLanguage : String
  partnerLanguage : String
  socket : String  -- abstract handle of the user's transport
  isActive : Bool
  lastActivity : Nat
  synthesisChunks : Nat
  translations : Nat
  lastProcessedNormalized : Option String
  lastProcessedAt : Nat  -- `session.lastProcessedAt || 0`
  deriving Repr, DecidableEq

abbrev PipeSessions := List (String × PipeSession)

/-- `findPartnerSession`, but returning the map key together with the
entry: the first other user whose entry carries the same session id
and is active. -/
def findPartnerEntry (sessions : PipeSessions) (userId : String) :
    Option (String × PipeSession) :=
  match jsGet sessions userId with
  | none => none
  | some us =>
    sessions.find? (fun kv =>
      ¬ kv.1 = userId ∧ kv.2.sessionId = us.sessionId ∧ kv.2.isActive)

/-- `findPartnerSession(userId)` as the source returns it. -/
def findPartnerSession (sessions : PipeSessions) (userId : String) :
    Option PipeSession :=
  (findPartnerEntry sessions userId).map (·.2)

/-- A chunk of synthesized audio handed to `handleSynthesisChunk`. -/
structure AudioChunk where
  audioData : String
  text : String
  isFinal : Bool
  timestamp : Nat
  deriving Repr, DecidableEq

/-- Messages written to a transport, and the provider calls the
pipeline makes, in emission order. -/
inductive Action where
  | synthesizedAudio (target : String) (chunk : AudioChunk)
      (speakerLanguage partnerLanguage : String)
  | liveTranslation (target : String) (speaker : String)
      (originalText translatedText : String)
  | latencyStats (target : String)
  | pipelineError (target : String)
  | mtCall (text sourceLang targetLang : String)
  | ttsSubmit (text : String) (isFinal : Bool)
  deriving Repr, DecidableEq

/-- `handleSynthesisChunk(userId, audioChunk)`: bump stats, then send
the chunk to the partner's socket — or to nobody when no partner
session exists. -/
def handleSynthesisChunk (sessions : PipeSessions) (userId : String)
    (chunk : AudioChunk) (now : Nat) : PipeSessions × List Action :=
  match jsGet sessions userId with
  | none => (sessions, [])
  | some s =>
    let s' := { s with synthesisChunks := s.synthesisChunks + 1,
                       lastActivity := now }
    let sessions' := jsSet sessions userId s'
    match findPartnerEntry sessions' userId with
    | some kv =>
      (sessions', [Action.synthesizedAudio kv.2.socket chunk
        s.userLanguage kv.2.userLanguage])
    | none => (sessions', [])

/-- The dedup normal form from `processCompleteTranslation`:
`s.trim().toLowerCase().replace(/[.,!?\s]+$/g, '')`. -/
def normalizeText (s : String) : String :=
  ⟨((jsLower (jsTrim s)).data.reverse.dropWhile
    (fun c => c = '.' || c = ',' || c = '!' || c = '?' || isWs c)).reverse⟩

/-- The dedup test in `processCompleteTranslation`: normalized text
equal to the last processed one and fired less than 3 s after it. -/
def isDedupHit (s : PipeSession) (text : String) (now : Nat) : Bool :=
  s.lastProcessedNormalized = some (normalizeText text) &&
  now - s.lastProcessedAt < 3000

/-- Outcome of the MT request made inside
`processCompleteTranslation`; `none` models a thrown provider error. -/
inductive MtOutcome where
  | ok (translatedText : String)
  | err
  deriving Repr, DecidableEq

/-- `processCompleteTranslation(userId, text)` — the handler run for
each utterance the gate fires.  The MT outcome is a parameter (the
HTTP call); emotion analysis only decorates the emitted payloads and
is not modelled.  Returns the updated session map and the ordered
provider calls / transport messages. -/
def processCompleteTranslation (sessions : PipeSessions)
    (userId text : String) (now : Nat) (mt : MtOutcome) :
    PipeSessions × List Action :=
  match jsGet sessions userId with
  | none => (sessions, [])
  | some s =>
    if isDedupHit s text now then
      (sessions, [])
    else
      let s' := { s with lastProcessedNormalized := some (normalizeText text),
                         lastProcessedAt := now }
      let sessions' := jsSet sessions userId s'
      match mt with
      | MtOutcome.ok t =>
        if t = "" then
          (sessions', [Action.mtCall text s.userLanguage s.partnerLanguage,
                       Action.pipelineError s.socket])
        else
          let s2 := { s' with translations := s'.translations + 1 }
          let sessions2 := jsSet sessions' userId s2
          let selfMsg := Action.liveTranslation s.socket "self" text t
          let partnerMsgs :=
            match findPartnerSession sessions2 userId with
            | some p => [Action.liveTranslation p.socket "partner" text t]
            | none => []
          (sessions2,
            [Action.mtCall text s.userLanguage s.partnerLanguage, selfMsg] ++
            partnerMsgs ++
            [Action.ttsSubmit t true, Action.latencyStats s.socket])
      | MtOutcome.err =>
        (sessions', [Action.mtCall text s.userLanguage s.partnerLanguage,
                     Action.pipelineError s.socket])

/-! ## Map lemmas -/

theorem jsGet_mem {α β : Type} [DecidableEq α] {m : List (α × β)}
    {k : α} {v : β} (h : jsGet m k = some v) : (k, v) ∈ m := by
  unfold jsGet at h
  obtain ⟨kv, hf, hv⟩ := Option.map_eq_some'.mp h
  have hmem := List.mem_of_find?_eq_some hf
  have hkey := List.find?_some hf
  simp only [decide_eq_true_eq] at hkey
  cases kv
  simp_all

theorem jsGet_jsSet_self {α β : Type} [DecidableEq α]
    (m : List (α × β)) (k : α) (v : β) :
    jsGet (jsSet m k v) k = some v := by
  induction m with
  | nil => simp [jsSet, jsGet, List.find?]
  | cons kv rest ih =>
    by_cases hk : kv.1 = k
    · simp [jsSet, hk, jsGet, List.find?]
    · simp only [jsSet, hk, if_false]
      simpa [jsGet, List.find?, hk] using ih

theorem mem_jsSet_of_ne {α β : Type} [DecidableEq α]
    {m : List (α × β)} {k : α} {v : β} {kv : α × β}
    (h : kv ∈ jsSet m k v) (hne : ¬ kv.1 = k) : kv ∈ m := by
  induction m with
  | nil =>
    simp only [jsSet, List.mem_singleton] at h
    subst h; simp at hne
  | cons kw rest ih =>
    by_cases hk : kw.1 = k
    · simp only [jsSet, hk, if_true, List.mem_cons] at h
      rcases h with h | h
      · subst h; simp at hne
      · exact List.mem_cons_of_mem _ h
    · simp only [jsSet, hk, if_false, List.mem_cons] at h
      rcases h with h | h
      · exact h ▸ List.mem_cons_self _ _
      · exact List.mem_cons_of_mem _ (ih h)

/-- Updating the binding of key `k` is invisible to a `find?` whose
predicate rejects every binding of `k`. -/
theorem find?_jsSet_invisible {α β : Type} [DecidableEq α]
    {m : List (α × β)} {k : α} {v : β} (p : α × β → Bool)
    (hp : ∀ w : β, p (k, w) = false) :
    (jsSet m k v).find? p = m.find? p := by
  induction m with
  | nil => simp [jsSet, List.find?, hp]
  | cons kw rest ih =>
    by_cases hk : kw.1 = k
    · have h1 : p kw = false := by
        have := hp kw.2
        rwa [show (k, kw.2) = kw by cases kw; simp_all] at this
      simp [jsSet, hk, List.find?, h1, hp]
    · simp only [jsSet, hk, if_false, List.find?]
      cases hpk : p kw <;> simp [hpk, ih]

/-! ## C1: synthesized-audio routing -/

/-- The partner search that `handleSynthesisChunk` performs after its
in-place stats update sees exactly the partners the original map has:
the speaker's own binding never satisfies the search predicate. -/
theorem findPartnerEntry_jsSet_self (sessions : PipeSessions)
    (userId : String) (s v : PipeSession)
    (hs : jsGet sessions userId = some s)
    (hv : v.sessionId = s.sessionId) :
    findPartnerEntry (jsSet sessions userId v) userId =
      findPartnerEntry sessions userId := by
  unfold findPartnerEntry
  rw [jsGet_jsSet_self, hs]
  dsimp only
  rw [hv]
  exact find?_jsSet_invisible _ (fun w => by simp)

/-- C1: every `synthesized-audio` message that `handleSynthesisChunk`
emits goes to the socket of a participant other than the speaker that
shares the speaker's session id and is active (the partner); when
distinct participants hold distinct sockets it is therefore never the
speaker's own socket; and when no partner session exists nothing is
emitted. -/
theorem synthesizedAudio_routed_to_partner
    (sessions : PipeSessions) (userId : String) (chunk : AudioChunk)
    (now : Nat)
    (hsock : ∀ kv₁ ∈ sessions, ∀ kv₂ ∈ sessions,
      (kv₁ : String × PipeSession).2.socket = kv₂.2.socket →
      kv₁.1 = kv₂.1) :
    (∀ target c sl pl,
      Action.synthesizedAudio target c sl pl ∈
        (handleSynthesisChunk sessions userId chunk now).2 →
      ∃ s kv, jsGet sessions userId = some s ∧ kv ∈ sessions ∧
        ¬ (kv : String × PipeSession).1 = userId ∧
        kv.2.sessionId = s.sessionId ∧ kv.2.isActive = true ∧
        target = kv.2.socket ∧ ¬ target = s.socket)
    ∧ (findPartnerSession sessions userId = none →
      (handleSynthesisChunk sessions userId chunk now).2 = []) := by
  constructor
  · intro target c sl pl hmem
    unfold handleSynthesisChunk at hmem
    cases hu : jsGet sessions userId with
    | none => rw [hu] at hmem; simp at hmem
    | some s =>
      rw [hu] at hmem
      dsimp only at hmem
      rw [findPartnerEntry_jsSet_self sessions userId s _ hu (by rfl)] at hmem
      cases hp : findPartnerEntry sessions userId with
      | none => rw [hp] at hmem; simp at hmem
      | some kv =>
        rw [hp] at hmem
        simp only [List.mem_singleton, Action.synthesizedAudio.injEq] at hmem
        obtain ⟨ht, _, _, _⟩ := hmem
        have hfind : sessions.find? (fun kv =>
            ¬ kv.1 = userId ∧ kv.2.sessionId = s.sessionId ∧
            kv.2.isActive = true) = some kv := by
          unfold findPartnerEntry at hp
          rw [hu] at hp
          exact hp
        have hkv := List.find?_some hfind
        simp only [decide_eq_true_eq] at hkv
        obtain ⟨hne, hsid, hact⟩ := hkv
        have hkvmem := List.mem_of_find?_eq_some hfind
        have hsmem : (userId, s) ∈ sessions := jsGet_mem hu
        refine ⟨s, kv, rfl, hkvmem, hne, hsid, hact, ht, ?_⟩
        intro heq
        exact hne (hsock kv hkvmem (userId, s) hsmem (ht ▸ heq))
  · intro hnone
    unfold handleSynthesisChunk
    cases hu : jsGet sessions userId with
    | none => simp
    | some s =>
      dsimp only
      rw [findPartnerEntry_jsSet_self sessions userId s _ hu (by rfl)]
      unfold findPartnerSession at hnone
      cases hp : findPartnerEntry sessions userId with
      | some kv => rw [hp] at hnone; simp at hnone
      | none => simp

/-- A concrete paired session for exercising the pipeline theorems. -/
def demoSpeaker : PipeSession :=
  { sessionId := "sess1", userId := "uA", userLanguage := "en",
    partnerLanguage := "tr", socket := "sockA", isActive := true,
    lastActivity := 0, synthesisChunks := 0, translations := 0,
    lastProcessedNormalized := none, lastProcessedAt := 0 }

def demoPartner : PipeSession :=
  { sessionId := "sess1", userId := "uB", userLanguage := "tr",
    partnerLanguage := "en", socket := "sockB", isActive := true,
    lastActivity := 0, synthesisChunks := 0, translations := 0,
    lastProcessedNormalized := none, lastProcessedAt := 0 }

def demoSessions : PipeSessions :=
  [("uA", demoSpeaker), ("uB", demoPartner)]

def demoChunk : AudioChunk :=
  { audioData := "QUJD", text := "hello", isFinal := true, timestamp := 5 }

theorem synthesizedAudio_routed_to_partner_witness :
    ∃ s kv, jsGet demoSessions "uA" = some s ∧ kv ∈ demoSessions ∧
      ¬ (kv : String × PipeSession).1 = "uA" ∧
      kv.2.sessionId = s.sessionId ∧ kv.2.isActive = true ∧
      "sockB" = kv.2.socket ∧ ¬ "sockB" = s.socket :=
  (synthesizedAudio_routed_to_partner demoSessions "uA" demoChunk 5
    (by decide)).1 "sockB" demoChunk "en" "tr" (by decide)

/-- C3: an utterance fired by the gate is dropped silently by
`processCompleteTranslation` — no MT call, no message to either
participant, no TTS submission, no state change — exactly when its
normalized form equals the last-processed normalized text and less
than 3 s elapsed since that processing; whenever either condition
fails, an MT call is issued (so the drop happens only under those two
conditions). -/
theorem dedup_drop_iff_normalized_and_recent
    (sessions : PipeSessions) (userId text : String) (now : Nat)
    (mt : MtOutcome) (s : PipeSession)
    (hs : jsGet sessions userId = some s) :
    (s.lastProcessedNormalized = some (normalizeText text) ∧
        now - s.lastProcessedAt < 3000 →
      processCompleteTranslation sessions userId text now mt =
        (sessions, [])) ∧
    (¬ (s.lastProcessedNormalized = some (normalizeText text) ∧
        now - s.lastProcessedAt < 3000) →
      Action.mtCall text s.userLanguage s.partnerLanguage ∈
        (processCompleteTranslation sessions userId text now mt).2) := by
  have hbool : ∀ (hcond : s.lastProcessedNormalized =
      some (normalizeText text) ∧ now - s.lastProcessedAt < 3000),
      isDedupHit s text now = true := by
    intro hcond
    unfold isDedupHit
    simp [hcond.1, hcond.2]
  have hbool' : ∀ (hcond : ¬ (s.lastProcessedNormalized =
      some (normalizeText text) ∧ now - s.lastProcessedAt < 3000)),
      isDedupHit s text now = false := by
    intro hcond
    unfold isDedupHit
    rcases not_and_or.mp hcond with h | h
    · simp [h]
    · simp [h]
  constructor
  · intro hcond
    unfold processCompleteTranslation
    rw [hs]
    dsimp only
    rw [hbool hcond]
    simp
  · intro hcond
    unfold processCompleteTranslation
    rw [hs]
    dsimp only
    rw [hbool' hcond]
    cases mt with
    | ok t =>
      by_cases ht : t = "" <;>
        simp [ht]
    | err => simp

def demoDedupSession : PipeSession :=
  { demoSpeaker with lastProcessedNormalized := some "hello",
                     lastProcessedAt := 0 }

def demoDedupSessions : PipeSessions := [("uA", demoDedupSession)]

theorem dedup_drop_iff_normalized_and_recent_witness :
    processCompleteTranslation demoDedupSessions "uA" " Hello!! " 1000
      MtOutcome.err = (demoDedupSessions, []) :=
  (dedup_drop_iff_normalized_and_recent demoDedupSessions "uA"
    " Hello!! " 1000 MtOutcome.err demoDedupSession (by decide)).1
    (by constructor <;> decide)

/-! ## Audio ingestion
(`index.js` `streaming-audio` handler → `processAudioData` →
`streamingTranscriptionService.sendAudioData`) -/

inductive ConnMode where
  | websocket  -- Deepgram streaming WebSocket
  | restApi    -- REST-chunked fallback
  deriving Repr, DecidableEq

/-- A transcription connection as `sendAudioData` consults it. -/
structure TransConn where
  mode : ConnMode
  isConnected : Bool
  wsOpen : Bool  -- `connection.ws.readyState === WebSocket.OPEN`
  audioBuffer : List (List Nat)
  language : String
  lastActivity : Nat
  deriving Repr, DecidableEq

abbrev TransConns := List (String × TransConn)

/-- `StreamingTranscriptionService.sendAudioData(userId, audioData)`.
When the primary connection is absent or not connected the source
walks the Google Cloud / AssemblyAI / Whisper services, none of which
inspects the frame either; their combined accept/reject verdict is the
`fallbackAccepts` parameter.  Returns the updated connection map and
whether the frame was forwarded. -/
def sendAudioData (conns : TransConns) (userId : String)
    (frame : List Nat) (now : Nat) (fallbackAccepts : Bool) :
    TransConns × Bool :=
  match jsGet conns userId with
  | none => (conns, fallbackAccepts)
  | some conn =>
    if ¬ conn.isConnected then (conns, fallbackAccepts)
    else
      match conn.mode with
      | ConnMode.restApi =>
        let buf := conn.audioBuffer ++ [frame]
        let chunksNeeded := if conn.language = "tr" then 15 else 20
        let conn' :=
          if buf.length ≥ chunksNeeded then
            { conn with audioBuffer := [], lastActivity := now }
          else
            { conn with audioBuffer := buf, lastActivity := now }
        (jsSet conns userId conn', true)
      | ConnMode.websocket =>
        if conn.wsOpen then
          (jsSet conns userId { conn with lastActivity := now }, true)
        else
          (conns, false)

/-- `processAudioData(userId, audioData)` as driven by the
`streaming-audio` transport handler: require an active pipeline
session, forward the frame to the transcription service, and on
success refresh the speaker's (and partner's) activity clock.  The
rolling emotion buffer is not modelled.  No property of the frame
bytes is ever examined. -/
def processAudioData (sessions : PipeSessions) (conns : TransConns)
    (userId : String) (frame : List Nat) (now : Nat)
    (fallbackAccepts : Bool) :
    PipeSessions × TransConns × Bool :=
  match jsGet sessions userId with
  | none => (sessions, conns, false)
  | some s =>
    if ¬ s.isActive then (sessions, conns, false)
    else
      let (conns', sent) := sendAudioData conns userId frame now
        fallbackAccepts
      if sent then
        let sessions₁ := jsSet sessions userId
          { s with lastActivity := now }
        let sessions₂ :=
          match findPartnerEntry sessions₁ userId with
          | some kv =>
            jsSet sessions₁ kv.1 { kv.2 with lastActivity := now }
          | none => sessions₁
        (sessions₂, conns', true)
      else
        (sessions, conns', false)

/-- C9 (counterexample): the server performs no byte-length parity
check.  A 3-byte frame — not a multiple of 2 — arriving for an active
session with an open streaming connection is forwarded, not
dropped. -/
def demoConn : TransConn :=
  { mode := ConnMode.websocket, isConnected := true, wsOpen := true,
    audioBuffer := [], language := "en", lastActivity := 0 }

def demoConns : TransConns := [("uA", demoConn)]

/-- C9 is false as stated: the odd-length frame `[1, 2, 3]` is
accepted and forwarded to the ASR stream. -/
theorem oddFrame_is_forwarded :
    ¬ (List.length [1, 2, 3] % 2 = 0) ∧
    (processAudioData demoSessions demoConns "uA" [1, 2, 3] 7
      true).2.2 = true := by
  constructor
  · decide
  · rfl

/-- C9 (amended): whether an inbound audio frame is forwarded to the
ASR stream never depends on the frame itself — in particular frames
of odd byte length are treated exactly like frames of even byte
length; a frame is forwarded whenever the speaker has an active
pipeline session and a connected open streaming connection. -/
theorem frame_forwarding_ignores_frame_bytes
    (sessions : PipeSessions) (conns : TransConns) (userId : String)
    (now : Nat) (fallbackAccepts : Bool) :
    (∀ f₁ f₂ : List Nat,
      (processAudioData sessions conns userId f₁ now
        fallbackAccepts).2.2 =
      (processAudioData sessions conns userId f₂ now
        fallbackAccepts).2.2)
    ∧ (∀ s conn, jsGet sessions userId = some s → s.isActive = true →
      jsGet conns userId = some conn → conn.isConnected = true →
      conn.mode = ConnMode.websocket → conn.wsOpen = true →
      ∀ f : List Nat,
        (processAudioData sessions conns userId f now
          fallbackAccepts).2.2 = true) := by
  have hsend : ∀ f : List Nat,
      (sendAudioData conns userId f now fallbackAccepts).2 =
      (sendAudioData conns userId [] now fallbackAccepts).2 := by
    intro f
    unfold sendAudioData
    cases jsGet conns userId with
    | none => rfl
    | some conn =>
      dsimp only
      by_cases hc : conn.isConnected = true
      · simp only [hc]
        cases conn.mode <;> simp
      · simp [hc]
  constructor
  · intro f₁ f₂
    unfold processAudioData
    cases jsGet sessions userId with
    | none => rfl
    | some s =>
      dsimp only
      by_cases hact : s.isActive = true
      · simp only [hact]
        rw [show (sendAudioData conns userId f₁ now fallbackAccepts) =
          ((sendAudioData conns userId f₁ now fallbackAccepts).1,
           (sendAudioData conns userId f₁ now fallbackAccepts).2) from rfl]
        rw [show (sendAudioData conns userId f₂ now fallbackAccepts) =
          ((sendAudioData conns userId f₂ now fallbackAccepts).1,
           (sendAudioData conns userId f₂ now fallbackAccepts).2) from rfl]
        rw [hsend f₁, hsend f₂]
        cases hs : (sendAudioData conns userId [] now fallbackAccepts).2 <;>
          simp
      · simp [hact]
  · intro s conn hs hact hc hcc hmode hws f
    unfold processAudioData
    rw [hs]
    dsimp only
    rw [hact]
    have : (sendAudioData conns userId f now fallbackAccepts).2 = true := by
      unfold sendAudioData
      rw [hc]
      dsimp only
      rw [hcc, hmode]
      simp [hws]
    simp only [not_true_eq_false, if_false]
    rw [show (sendAudioData conns userId f now fallbackAccepts) =
      ((sendAudioData conns userId f now fallbackAccepts).1,
       (sendAudioData conns userId f now fallbackAccepts).2) from rfl]
    rw [this, if_pos rfl]

theorem frame_forwarding_ignores_frame_bytes_witness :
    (processAudioData demoSessions demoConns "uA" [9] 7 true).2.2 =
      true :=
  (frame_forwarding_ignores_frame_bytes demoSessions demoConns "uA" 7
    true).2 demoSpeaker demoConn (by decide) (by decide) (by decide)
    (by decide) (by decide) (by decide) [9]

/-! ## Utterance gate (`ProfessionalConversationProcessor`) -/

/-- `\w` of the source's regexes (after ASCII lowering). -/
def isWordChar (c : Char) : Bool :=
  ('a' ≤ c && c ≤ 'z') || ('0' ≤ c && c ≤ '9') || c = '_'

/-- The maximal `\w+` runs of the lowered text (used by the
word-boundary verb regexes). -/
def wordRuns (l : List Char) : List (List Char) :=
  runsAux (fun c => ¬ isWordChar c) l []

def medicalKeywords : List String :=
  ["pain", "ache", "hurt", "symptom", "medicine", "medication",
   "prescription", "doctor", "nurse", "hospital", "clinic",
   "appointment", "diagnosis", "blood", "pressure", "heart",
   "temperature", "fever", "nausea", "headache", "stomach", "chest",
   "breathing", "dizzy", "tired", "ağrı", "acı", "belirti", "ilaç",
   "reçete", "doktor", "hemşire", "hastane", "klinik", "randevu",
   "teşhis", "kan", "basınç", "kalp", "ateş", "mide", "göğüs",
   "nefes", "baş ağrısı", "yorgun"]

def urgencyKeywords : List String :=
  ["urgent", "emergency", "help", "pain", "severe", "serious",
   "immediately", "acil", "yardım", "ağrı", "ciddi", "hemen",
   "şiddetli"]

def markerKeywords : List String :=
  ["so", "well", "now", "then", "okay", "alright", "actually",
   "şey", "yani", "şimdi", "tamam", "peki", "aslında"]

def topicStarters : List String :=
  ["so", "now", "well", "actually", "by the way", "şey", "şimdi",
   "aslında"]

def interrogativeStarts : List String :=
  ["what", "how", "when", "where", "why", "who", "can", "could",
   "would", "should", "do", "does", "did", "is", "are", "was",
   "were"]

def enAuxVerbs : List String :=
  ["am", "is", "are", "was", "were", "have", "has", "had", "do",
   "does", "did", "will", "would", "could", "should", "can", "may",
   "might", "must"]

def trVerbSuffixes : List String :=
  ["yor", "du", "di", "muş", "miş", "mış", "acak", "ecek", "ir",
   "er", "ar", "ur"]

/-- `detectMedicalTerms(text)`. -/
def detectMedicalTerms (text : String) : List String :=
  medicalKeywords.filter (fun t => jsIncludes (jsLower text) (jsLower t))

/-- `detectUrgency(text)`. -/
def detectUrgency (text : String) : List String :=
  urgencyKeywords.filter (fun t => jsIncludes (jsLower text) (jsLower t))

/-- `detectConversationMarkers(text)`. -/
def detectConversationMarkers (text : String) : List String :=
  markerKeywords.filter (fun t => jsStartsWith (jsLower text) (jsLower t))

/-- `hasVerb(text, language)`: auxiliary-verb word or `ing`/`ed`
ending for English, verb suffixes for Turkish, `true` otherwise. -/
def hasVerb (text language : String) : Bool :=
  let runs := wordRuns (jsLower text).data
  if language = "en" then
    runs.any (fun w => enAuxVerbs.any (fun v => v.data = w)) ||
    runs.any (fun w =>
      (w.length ≥ 4 && ['i', 'n', 'g'].isSuffixOf w) ||
      (w.length ≥ 3 && ['e', 'd'].isSuffixOf w))
  else if language = "tr" then
    runs.any (fun w => trVerbSuffixes.any (fun suf =>
      w.length > suf.data.length && suf.data.isSuffixOf w))
  else
    true

/-- `startsNewTopic(text)`. -/
def startsNewTopic (text : String) : Bool :=
  topicStarters.any (fun t => jsStartsWith (jsLower text) (jsLower t))

/-- The adaptive per-participant conversation state (only the fields
the modelled operations touch). -/
structure Conversation where
  userId : String
  language : String
  role : String
  avgSentenceLength : ℚ
  avgPauseLength : ℚ
  currentSentence : String
  sentenceStartTime : Nat
  conversationHistory : List String
  confidenceHistory : List ℚ
  sentencePatternCount : Nat  -- bounded pattern window, by size
  totalSentences : Nat
  mediumPause : ℚ  -- `personalTiming.mediumPause`
  medicalTermsUsed : List String
  deriving Repr, DecidableEq

/-- `initializeProfessionalConversation(userId, language, role)`. -/
def initializeProfessionalConversation (userId language role : String)
    (now : Nat) : Conversation :=
  { userId := userId, language := language, role := role,
    avgSentenceLength := if role = "doctor" then 12 else 8,
    avgPauseLength := if role = "doctor" then 1000 else 800,
    currentSentence := "", sentenceStartTime := now,
    conversationHistory := [], confidenceHistory := [],
    sentencePatternCount := 0, totalSentences := 0,
    mediumPause := 1200,  -- config.sentenceCompletionThreshold
    medicalTermsUsed := [] }

/-- `buildsOnPreviousSentence(text, conversation)`. -/
def buildsOnPreviousSentence (text : String) (conv : Conversation) :
    Bool :=
  match conv.conversationHistory.getLast? with
  | none => false
  | some last =>
    jsIncludes (jsLower text)
      ⟨(jsLower last).data.takeWhile (fun c => ¬ c = ' ')⟩

/-- `isCompleteThought(text, conversation)`. -/
def isCompleteThought (text : String) (conv : Conversation) : Bool :=
  jsWordCount text ≥ 3 &&
  (jsIncludes text "." || jsIncludes text "?" || jsIncludes text "!" ||
   (jsWordCount text : ℚ) ≥ conv.avgSentenceLength * (8 / 10))

/-- The signals record handed to
`calculateProfessionalCompletionScore`. -/
structure ScoreSignals where
  hasEndPunctuation : Bool
  isQuestion : Bool
  isStatement : Bool
  isExclamation : Bool
  hasCompleteStructure : Bool
  isCompleteThought : Bool
  isSubstantialLength : Bool
  isHighConfidence : Bool
  medicalTerms : List String
  urgencyIndicators : List String
  conversationMarkers : List String
  buildsOnPrevious : Bool
  startsNewTopic : Bool
  wordCount : Nat
  avgLength : ℚ
  deriving Repr, DecidableEq

/-- `calculateProfessionalCompletionScore(signals)`: the additive
completion score, capped at 1. -/
def calculateProfessionalCompletionScore (g : ScoreSignals) : ℚ :=
  let score : ℚ := 0
  let score := if g.hasEndPunctuation then score + 35 / 100 else score
  let score :=
    if g.isQuestion then
      if g.wordCount ≥ 3 then score + 4 / 10
      else if g.wordCount ≥ 2 then score + 2 / 10
      else score + 1 / 10
    else score
  let score := if g.isStatement then score + 3 / 10 else score
  let score := if g.isExclamation then score + 25 / 100 else score
  let score := if g.hasCompleteStructure then score + 25 / 100 else score
  let score := if g.isCompleteThought then score + 3 / 10 else score
  let score := if g.isSubstantialLength then score + 15 / 100 else score
  let score := if g.isHighConfidence then score + 1 / 10 else score
  let lengthRatio := (g.wordCount : ℚ) / g.avgLength
  let score := if lengthRatio ≥ 8 / 10 then score + 1 / 10 else score
  let score := if lengthRatio ≥ 12 / 10 then score + 5 / 100 else score
  let score := if 0 < g.medicalTerms.length then score + 1 / 10 else score
  let score := if 0 < g.urgencyIndicators.length then score + 15 / 100 else score
  let score := if 0 < g.conversationMarkers.length then score + 5 / 100 else score
  let score := if g.startsNewTopic then score + 1 / 10 else score
  let score := if g.buildsOnPrevious then score - 1 / 10 else score
  min score 1

/-- The analysis record `analyzeProfessionalSpeech` returns. -/
structure Analysis where
  wordCount : Nat
  hasEndPunctuation : Bool
  isQuestion : Bool
  isStatement : Bool
  isExclamation : Bool
  hasCompleteStructure : Bool
  isCompleteThought : Bool
  isSubstantialLength : Bool
  isHighConfidence : Bool
  isTypicalLength : Bool
  completionScore : ℚ
  medicalTerms : List String
  urgencyIndicators : List String
  conversationMarkers : List String
  buildsOnPrevious : Bool
  startsNewTopic : Bool
  deriving Repr, DecidableEq

/-- `analyzeProfessionalSpeech(text, confidence, conversation)`.
Thresholds are the instantiated config of the pipeline:
`minWordsForProcessing = 3`, `minConfidenceThreshold = 0.8`. -/
def analyzeProfessionalSpeech (text : String) (confidence : ℚ)
    (conv : Conversation) : Analysis :=
  let wc := jsWordCount text
  let hasEndPunct :=
    match (jsTrim text).data.getLast? with
    | some c => c = '.' || c = '!' || c = '?'
    | none => false
  let isQ := jsIncludes text "?" ||
    interrogativeStarts.any (fun w => jsStartsWith (jsLower text) w)
  let isStmt := hasEndPunct && !isQ
  let isExcl := jsIncludes text "!"
  let med := detectMedicalTerms text
  let urg := detectUrgency text
  let markers := detectConversationMarkers text
  let hasSubject := wc ≥ 2
  let verb := hasVerb text conv.language
  let completeStructure := hasSubject && verb
  let completeThought := isCompleteThought text conv
  let substantial := wc ≥ 3
  let highConf := confidence ≥ 8 / 10
  let typical := (wc : ℚ) ≥ conv.avgSentenceLength * (6 / 10)
  let builds := buildsOnPreviousSentence text conv
  let newTopic := startsNewTopic text
  let score := calculateProfessionalCompletionScore
    { hasEndPunctuation := hasEndPunct, isQuestion := isQ,
      isStatement := isStmt, isExclamation := isExcl,
      hasCompleteStructure := completeStructure,
      isCompleteThought := completeThought,
      isSubstantialLength := substantial,
      isHighConfidence := highConf, medicalTerms := med,
      urgencyIndicators := urg, conversationMarkers := markers,
      buildsOnPrevious := builds, startsNewTopic := newTopic,
      wordCount := wc, avgLength := conv.avgSentenceLength }
  { wordCount := wc, hasEndPunctuation := hasEndPunct,
    isQuestion := isQ, isStatement := isStmt, isExclamation := isExcl,
    hasCompleteStructure := completeStructure,
    isCompleteThought := completeThought,
    isSubstantialLength := substantial, isHighConfidence := highConf,
    isTypicalLength := typical, completionScore := score,
    medicalTerms := med, urgencyIndicators := urg,
    conversationMarkers := markers, buildsOnPrevious := builds,
    startsNewTopic := newTopic }

/-- One record of `this.recentlyProcessed`. -/
structure RecentEntry where
  text : String
  timestamp : Nat
  deriving Repr, DecidableEq

/-- `isDuplicate(userId, text)`: same exact text processed less than
3 s ago. -/
def gateIsDuplicate (recents : List (String × RecentEntry))
    (userId text : String) (now : Nat) : Bool :=
  match jsGet recents userId with
  | none => false
  | some r => r.text = text && now - r.timestamp < 3000

/-- What `shouldProcessProfessionally` decides: process now, start the
3 s short-message timer, start the adaptive timer, or keep building
the sentence (also the duplicate case, which the caller treats the
same way). -/
inductive Decision where
  | immediate
  | queueShort
  | queueTimed
  | buildSentence
  deriving Repr, DecidableEq

/-- `shouldProcessProfessionally(userId, text, analysis, isFinal)`,
with the branch order of the source. -/
def shouldProcessProfessionally (recents : List (String × RecentEntry))
    (userId text : String) (a : Analysis) (isFinal : Bool)
    (now : Nat) : Decision :=
  if gateIsDuplicate recents userId text now = true then
    Decision.buildSentence
  else if 0 < a.urgencyIndicators.length then Decision.immediate
  else if 8 / 10 ≤ a.completionScore ∧ a.isHighConfidence = true then
    Decision.immediate
  else if a.isQuestion = true ∧ 6 / 10 ≤ a.completionScore then
    Decision.immediate
  else if a.wordCount ≤ 2 ∧ 1 ≤ a.wordCount ∧
      gateIsDuplicate recents userId text now = false then
    Decision.queueShort
  else if isFinal = true ∧ a.isSubstantialLength = true ∧
      a.isHighConfidence = true then
    Decision.immediate
  else if 0 < a.medicalTerms.length ∧ 6 / 10 ≤ a.completionScore then
    Decision.immediate
  else if a.isSubstantialLength = true ∧ 4 / 10 ≤ a.completionScore then
    Decision.queueTimed
  else
    Decision.buildSentence

/-- `updateProfessionalLearning(userId, text, confidence, analysis)`:
the adaptive update run on each firing. -/
def updateProfessionalLearning (conv : Conversation) (text : String)
    (confidence : ℚ) (a : Analysis) (now : Nat) : Conversation :=
  let words := jsWordCount text
  let newAvg := conv.avgSentenceLength * (85 / 100) +
    (words : ℚ) * (15 / 100)
  let processingTime := now - conv.sentenceStartTime
  let newPause := conv.mediumPause * (8 / 10) +
    (processingTime : ℚ) * (2 / 10)
  let hist := conv.confidenceHistory ++ [confidence]
  let hist := if hist.length > 10 then hist.tail else hist
  let patterns := conv.sentencePatternCount + 1
  let patterns := if patterns > 20 then patterns - 1 else patterns
  { conv with
    avgSentenceLength := newAvg,
    totalSentences := conv.totalSentences + 1,
    medicalTermsUsed := conv.medicalTermsUsed ++ a.medicalTerms,
    mediumPause := newPause,
    confidenceHistory := hist,
    sentencePatternCount := patterns }

/-! ## Word-count facts -/

theorem dropWhile_head_not (p : Char → Bool) :
    ∀ (l : List Char) (d : Char) (ds : List Char),
    l.dropWhile p = d :: ds → p d = false := by
  intro l
  induction l with
  | nil => intro d ds h; simp [List.dropWhile] at h
  | cons c cs ih =>
    intro d ds h
    simp only [List.dropWhile] at h
    cases hpc : p c with
    | true => rw [hpc] at h; exact ih d ds h
    | false =>
      rw [hpc] at h
      cases h
      exact hpc

theorem trim_head_not_ws (s : String) (c : Char) (cs : List Char)
    (h : (jsTrim s).data = c :: cs) : isWs c = false := by
  unfold jsTrim at h
  set a := s.data.dropWhile isWs with ha
  simp only at h
  have h2 : a.reverse.dropWhile isWs = cs.reverse ++ [c] := by
    have h' := congrArg List.reverse h
    simpa using h'
  have h3 : a.reverse =
      a.reverse.takeWhile isWs ++ (cs.reverse ++ [c]) := by
    conv_lhs => rw [← List.takeWhile_append_dropWhile
      (p := isWs) (l := a.reverse)]
    rw [h2]
  have h4 : a = c :: (cs ++ (a.reverse.takeWhile isWs).reverse) := by
    have h' := congrArg List.reverse h3
    simpa [List.reverse_append] using h'
  exact dropWhile_head_not isWs s.data c _ (by rw [← ha, h4])

theorem runsAux_pos (stop : Char → Bool) (l : List Char) :
    ∀ acc : List Char, acc.isEmpty = false →
    1 ≤ (runsAux stop l acc).length := by
  induction l with
  | nil => intro acc h; simp [runsAux, h]
  | cons c cs ih =>
    intro acc h
    simp only [runsAux]
    by_cases hc : stop c = true
    · rw [if_pos hc, if_neg (by simp [h])]
      simp
    · rw [if_neg hc]
      exact ih _ (by simp)

/-- Every gate input counts as at least one word
(`"".split(/\s+/)` is `[""]`). -/
theorem jsWordCount_pos (s : String) : 1 ≤ jsWordCount s := by
  unfold jsWordCount
  cases ht : (jsTrim s).data with
  | nil => simp [ht]
  | cons c cs =>
    have hc := trim_head_not_ws s c cs ht
    simp only [ht, List.isEmpty_cons, Bool.false_eq_true, if_false]
    unfold wsFields runsAux
    rw [if_neg (by simp [hc])]
    exact runsAux_pos isWs cs [c] (by simp)

/-! ## C4: the gate's immediate-firing conditions -/

def demoConv : Conversation :=
  initializeProfessionalConversation "uA" "en" "doctor" 0

/-- The fully evaluated analysis of the two-word candidate
`"Blood pressure."` at confidence `0.5` in a fresh doctor profile. -/
theorem bloodPressure_analysis :
    analyzeProfessionalSpeech "Blood pressure." (1 / 2) demoConv =
    { wordCount := 2, hasEndPunctuation := true, isQuestion := false,
      isStatement := true, isExclamation := false,
      hasCompleteStructure := false, isCompleteThought := false,
      isSubstantialLength := false, isHighConfidence := false,
      isTypicalLength := false, completionScore := 3 / 4,
      medicalTerms := ["blood", "pressure"], urgencyIndicators := [],
      conversationMarkers := [], buildsOnPrevious := false,
      startsNewTopic := false } := by
  have hmed : detectMedicalTerms "Blood pressure." =
      ["blood", "pressure"] := by decide
  have hurg : detectUrgency "Blood pressure." = [] := by decide
  have hmark : detectConversationMarkers "Blood pressure." = [] := by
    decide
  have hwc : jsWordCount "Blood pressure." = 2 := by decide
  have hep : (jsTrim "Blood pressure.").data.getLast? = some '.' := by
    decide
  have hq : jsIncludes "Blood pressure." "?" = false := by decide
  have hqs : interrogativeStarts.any
      (fun w => jsStartsWith (jsLower "Blood pressure.") w) = false := by
    decide
  have hex : jsIncludes "Blood pressure." "!" = false := by decide
  have hverb : hasVerb "Blood pressure." "en" = false := by decide
  have hct : isCompleteThought "Blood pressure." demoConv = false := by
    unfold isCompleteThought
    rw [hwc]
    norm_num [demoConv, initializeProfessionalConversation]
  have hbp : buildsOnPreviousSentence "Blood pressure." demoConv =
      false := by decide
  have hnt : startsNewTopic "Blood pressure." = false := by decide
  have hlang : demoConv.language = "en" := rfl
  have havg : demoConv.avgSentenceLength = 12 := rfl
  simp only [analyzeProfessionalSpeech,
    calculateProfessionalCompletionScore, hlang, havg, hmed, hurg,
    hmark, hwc, hep, hq, hqs, hex, hverb, hct, hbp, hnt]
  norm_num [min_def, Analysis.mk.injEq]

/-- C4 is false as stated: `"Blood pressure."` carries medical
keywords and completion-score `3/4 ≥ 0.6`, is not a duplicate, yet
the gate does not fire immediately — the two-word candidate is routed
to the 3 s short-message timer before the medical branch is
reached. -/
theorem gate_medical_short_text_not_immediate :
    0 < (analyzeProfessionalSpeech "Blood pressure." (1 / 2)
        demoConv).medicalTerms.length ∧
    6 / 10 ≤ (analyzeProfessionalSpeech "Blood pressure." (1 / 2)
        demoConv).completionScore ∧
    gateIsDuplicate [] "uA" "Blood pressure." 0 = false ∧
    shouldProcessProfessionally [] "uA" "Blood pressure."
      (analyzeProfessionalSpeech "Blood pressure." (1 / 2) demoConv)
      false 0 = Decision.queueShort := by
  rw [bloodPressure_analysis]
  refine ⟨by decide, by norm_num, by decide, ?_⟩
  unfold shouldProcessProfessionally
  norm_num [gateIsDuplicate, jsGet]

/-- C4 (amended): for a non-duplicate candidate the gate fires
immediately iff an urgency keyword is present, or completion-score
≥ 0.8 with confidence ≥ 0.8, or it is a question with score ≥ 0.6,
or it is a final transcript with ≥ 3 words and confidence ≥ 0.8, or
— only when the candidate also has at least 3 words — a medical
keyword is present with score ≥ 0.6 (1–2-word candidates go to the
short-message timer instead). -/
theorem gate_immediate_iff (recents : List (String × RecentEntry))
    (userId text : String) (conf : ℚ) (conv : Conversation)
    (isFinal : Bool) (now : Nat) (a : Analysis)
    (ha : a = analyzeProfessionalSpeech text conf conv)
    (hdup : gateIsDuplicate recents userId text now = false) :
    shouldProcessProfessionally recents userId text a isFinal now =
      Decision.immediate ↔
    (0 < a.urgencyIndicators.length ∨
     (8 / 10 ≤ a.completionScore ∧ 8 / 10 ≤ conf) ∨
     (a.isQuestion = true ∧ 6 / 10 ≤ a.completionScore) ∨
     (isFinal = true ∧ 3 ≤ a.wordCount ∧ 8 / 10 ≤ conf) ∨
     (3 ≤ a.wordCount ∧ 0 < a.medicalTerms.length ∧
      6 / 10 ≤ a.completionScore)) := by
  have hhc : a.isHighConfidence = true ↔ 8 / 10 ≤ conf := by
    rw [ha]
    exact decide_eq_true_iff
  have hsub : a.isSubstantialLength = true ↔ 3 ≤ a.wordCount := by
    rw [ha]
    exact decide_eq_true_iff
  have hwpos : 1 ≤ a.wordCount := by
    rw [ha]
    exact jsWordCount_pos text
  unfold shouldProcessProfessionally
  rw [hdup]
  simp only [Bool.false_eq_true, if_false, eq_self_iff_true, and_true]
  split_ifs with h1 h2 h3 h4 h5 h6 h7
  · exact iff_of_true rfl (Or.inl h1)
  · exact iff_of_true rfl (Or.inr (Or.inl ⟨h2.1, hhc.mp h2.2⟩))
  · exact iff_of_true rfl (Or.inr (Or.inr (Or.inl h3)))
  · refine iff_of_false (by decide) ?_
    intro h
    rcases h with h | h | h | h | h
    · exact h1 h
    · exact h2 ⟨h.1, hhc.mpr h.2⟩
    · exact h3 h
    · omega
    · omega
  · exact iff_of_true rfl (Or.inr (Or.inr (Or.inr (Or.inl
      ⟨h5.1, hsub.mp h5.2.1, hhc.mp h5.2.2⟩))))
  · have hw3 : 3 ≤ a.wordCount := by omega
    exact iff_of_true rfl (Or.inr (Or.inr (Or.inr (Or.inr
      ⟨hw3, h6.1, h6.2⟩))))
  · refine iff_of_false (by decide) ?_
    intro h
    rcases h with h | h | h | h | h
    · exact h1 h
    · exact h2 ⟨h.1, hhc.mpr h.2⟩
    · exact h3 h
    · exact h5 ⟨h.1, hsub.mpr h.2.1, hhc.mpr h.2.2⟩
    · exact h6 ⟨h.2.1, h.2.2⟩
  · refine iff_of_false (by decide) ?_
    intro h
    rcases h with h | h | h | h | h
    · exact h1 h
    · exact h2 ⟨h.1, hhc.mpr h.2⟩
    · exact h3 h
    · exact h5 ⟨h.1, hsub.mpr h.2.1, hhc.mpr h.2.2⟩
    · exact h6 ⟨h.2.1, h.2.2⟩

/-- The urgency shortcut at a concrete input: `"help"` with low
confidence fires immediately. -/
theorem gate_immediate_iff_witness :
    shouldProcessProfessionally [] "uA" "help"
      (analyzeProfessionalSpeech "help" (6 / 10) demoConv) false 0 =
      Decision.immediate ↔
    (0 < (analyzeProfessionalSpeech "help" (6 / 10)
        demoConv).urgencyIndicators.length ∨
     (8 / 10 ≤ (analyzeProfessionalSpeech "help" (6 / 10)
        demoConv).completionScore ∧ 8 / 10 ≤ (6 : ℚ) / 10) ∨
     ((analyzeProfessionalSpeech "help" (6 / 10)
        demoConv).isQuestion = true ∧
      6 / 10 ≤ (analyzeProfessionalSpeech "help" (6 / 10)
        demoConv).completionScore) ∨
     (false = true ∧
      3 ≤ (analyzeProfessionalSpeech "help" (6 / 10)
        demoConv).wordCount ∧ 8 / 10 ≤ (6 : ℚ) / 10) ∨
     (3 ≤ (analyzeProfessionalSpeech "help" (6 / 10)
        demoConv).wordCount ∧
      0 < (analyzeProfessionalSpeech "help" (6 / 10)
        demoConv).medicalTerms.length ∧
      6 / 10 ≤ (analyzeProfessionalSpeech "help" (6 / 10)
        demoConv).completionScore)) :=
  gate_immediate_iff [] "uA" "help" (6 / 10) demoConv false 0
    (analyzeProfessionalSpeech "help" (6 / 10) demoConv) rfl
    (by decide)

/-! ## C8: the adaptive running-average sentence length -/

/-- An analysis value whose fields are all neutral (the learning
update only reads `medicalTerms` from it). -/
def blankAnalysis : Analysis :=
  { wordCount := 0, hasEndPunctuation := false, isQuestion := false,
    isStatement := false, isExclamation := false,
    hasCompleteStructure := false, isCompleteThought := false,
    isSubstantialLength := false, isHighConfidence := false,
    isTypicalLength := false, completionScore := 0,
    medicalTerms := [], urgencyIndicators := [],
    conversationMarkers := [], buildsOnPrevious := false,
    startsNewTopic := false }

/-- A 1400-word utterance. -/
def longText : String :=
  String.mk ((List.replicate 1400 ['a', ' ']).flatten)

theorem avgStep_formula (conv : Conversation) (text : String)
    (conf : ℚ) (a : Analysis) (now : Nat) :
    (updateProfessionalLearning conv text conf a
      now).avgSentenceLength =
    conv.avgSentenceLength * (85 / 100) +
      (jsWordCount text : ℚ) * (15 / 100) := by
  simp [updateProfessionalLearning]

theorem avgStep_bounds (conv : Conversation) (text : String)
    (conf : ℚ) (a : Analysis) (now : Nat) :
    (1 ≤ conv.avgSentenceLength →
      1 ≤ (updateProfessionalLearning conv text conf a
        now).avgSentenceLength) ∧
    (conv.avgSentenceLength ≤ 200 → (jsWordCount text : ℚ) ≤ 200 →
      (updateProfessionalLearning conv text conf a
        now).avgSentenceLength ≤ 200) := by
  have hw1 : (1 : ℚ) ≤ (jsWordCount text : ℚ) := by
    exact_mod_cast jsWordCount_pos text
  constructor
  · intro h1
    rw [avgStep_formula]
    nlinarith [hw1, h1]
  · intro h1 h2
    rw [avgStep_formula]
    nlinarith [h1, h2]

/-- Fold of the learning update over a sequence of fired
utterances. -/
def fireAll (conv : Conversation)
    (us : List (String × ℚ × Analysis × Nat)) : Conversation :=
  us.foldl (fun c u =>
    updateProfessionalLearning c u.1 u.2.1 u.2.2.1 u.2.2.2) conv

set_option maxRecDepth 40000 in
/-- C8 is false as stated.  (a) From the initial doctor profile
(average 12), firing the one-word utterance `"hi"` moves the average
by `1.65`, far more than 15 % of the utterance's own word count
(`0.15`).  (b) Firing a single 1400-word utterance pushes the average
to `220.2 > 200`. -/
theorem avg_sentence_claim_false :
    (jsWordCount "hi" = 1 ∧
     demoConv.avgSentenceLength -
       (updateProfessionalLearning demoConv "hi" 1 blankAnalysis
         0).avgSentenceLength = 33 / 20 ∧
     ¬ (demoConv.avgSentenceLength -
       (updateProfessionalLearning demoConv "hi" 1 blankAnalysis
         0).avgSentenceLength ≤
       (15 / 100) * (jsWordCount "hi" : ℚ))) ∧
    (jsWordCount longText = 1400 ∧
     200 < (updateProfessionalLearning demoConv longText 1
       blankAnalysis 0).avgSentenceLength) := by
  have hwc : jsWordCount "hi" = 1 := by decide
  have hwcL : jsWordCount longText = 1400 := by decide
  have havg : demoConv.avgSentenceLength = 12 := rfl
  constructor
  · refine ⟨hwc, ?_, ?_⟩
    · rw [avgStep_formula, hwc, havg]
      norm_num
    · rw [avgStep_formula, hwc, havg]
      norm_num
  · refine ⟨hwcL, ?_⟩
    rw [avgStep_formula, hwcL, havg]
    norm_num

/-- C8 (amended): each firing updates the running average exactly as
`0.85 · old + 0.15 · w`; the average never drops below 1; starting
from any profile within `[1, 200]`, it stays within `[1, 200]` across
any sequence of firings whose utterances have at most 200 words each
(without that cap the upper bound can be exceeded); a single firing
moves the average by exactly `0.15 · |w − old|`; and both initial
profiles (12 for doctors, 8 otherwise) lie within `[1, 200]`. -/
theorem avg_sentence_length_behaviour (conv : Conversation)
    (text : String) (conf : ℚ) (a : Analysis) (now : Nat) :
    ((updateProfessionalLearning conv text conf a
        now).avgSentenceLength =
      conv.avgSentenceLength * (85 / 100) +
        (jsWordCount text : ℚ) * (15 / 100)) ∧
    (1 ≤ conv.avgSentenceLength →
      1 ≤ (updateProfessionalLearning conv text conf a
        now).avgSentenceLength) ∧
    (conv.avgSentenceLength ≤ 200 → (jsWordCount text : ℚ) ≤ 200 →
      (updateProfessionalLearning conv text conf a
        now).avgSentenceLength ≤ 200) ∧
    (|(updateProfessionalLearning conv text conf a
        now).avgSentenceLength - conv.avgSentenceLength| =
      (15 / 100) * |(jsWordCount text : ℚ) -
        conv.avgSentenceLength|) ∧
    (∀ us : List (String × ℚ × Analysis × Nat),
      1 ≤ conv.avgSentenceLength → conv.avgSentenceLength ≤ 200 →
      (∀ u ∈ us, ((jsWordCount u.1 : ℚ) ≤ 200)) →
      1 ≤ (fireAll conv us).avgSentenceLength ∧
        (fireAll conv us).avgSentenceLength ≤ 200) ∧
    (∀ uid lang role : String, ∀ t0 : Nat,
      1 ≤ (initializeProfessionalConversation uid lang role
        t0).avgSentenceLength ∧
      (initializeProfessionalConversation uid lang role
        t0).avgSentenceLength ≤ 200) := by
  refine ⟨avgStep_formula conv text conf a now,
    (avgStep_bounds conv text conf a now).1,
    (avgStep_bounds conv text conf a now).2, ?_, ?_, ?_⟩
  · rw [avgStep_formula]
    have h : conv.avgSentenceLength * (85 / 100) +
        (jsWordCount text : ℚ) * (15 / 100) -
        conv.avgSentenceLength =
      (15 / 100) * ((jsWordCount text : ℚ) -
        conv.avgSentenceLength) := by ring
    rw [h, abs_mul, abs_of_pos (by norm_num : (0 : ℚ) < 15 / 100)]
  · intro us
    induction us generalizing conv with
    | nil => intro h1 h2 _; exact ⟨h1, h2⟩
    | cons u rest ih =>
      intro h1 h2 hall
      have hu := hall u (List.mem_cons_self u rest)
      have hstep := avgStep_bounds conv u.1 u.2.1 u.2.2.1 u.2.2.2
      exact ih (updateProfessionalLearning conv u.1 u.2.1 u.2.2.1
          u.2.2.2) (hstep.1 h1) (hstep.2 h2 hu)
        (fun v hv => hall v (List.mem_cons_of_mem u hv))
  · intro uid lang role t0
    unfold initializeProfessionalConversation
    by_cases hr : role = "doctor" <;>
      simp [hr] <;> norm_num

theorem avg_sentence_length_behaviour_witness :
    1 ≤ (updateProfessionalLearning demoConv "hi" 1 blankAnalysis
      0).avgSentenceLength :=
  (avg_sentence_length_behaviour demoConv "hi" 1 blankAnalysis
    0).2.1 (by norm_num [demoConv, initializeProfessionalConversation])

/-! ## MT client (`TranslationService.translate`) -/

/-- The provider request `translate` issues (the fields the claims
are about). -/
structure MtRequest where
  text : String
  sourceLang : String
  targetLang : String
  timeoutMs : Nat
  deriving Repr, DecidableEq

/-- Possible outcomes of the single axios POST. -/
inductive MtHttpOutcome where
  | success (translations : List String)
  | httpError (status : Nat)
  | networkError
  deriving Repr, DecidableEq

/-- The errors `translate` surfaces. -/
inductive MtError where
  | quotaExceeded            -- HTTP 456
  | apiKeyInvalid            -- HTTP 403
  | apiError (status : Nat)  -- other HTTP status
  | networkNoResponse        -- request made, no response
  | noTranslation            -- empty translations array
  deriving Repr, DecidableEq

structure MtResult where
  translatedText : String
  detectedLanguage : String
  confidence : ℚ
  deriving Repr, DecidableEq

/-- `mapLanguageForDeepL`. -/
def mapLanguageForDeepL (language : String) : String :=
  if language = "en" then "EN"
  else if language = "tr" then "TR"
  else if language = "auto" then "auto"
  else "EN"

/-- `TranslationService.translate(text, sourceLanguage,
targetLanguage)`: empty text returns an empty result without any
provider request; otherwise exactly one request with a 10 s timeout
is issued and its outcome is classified — quota (456), auth (403),
other HTTP, network — with no retry anywhere.  Returns the list of
requests issued alongside the result. -/
def translate (text sourceLanguage targetLanguage : String)
    (outcome : MtHttpOutcome) :
    List MtRequest × Except MtError MtResult :=
  if (jsTrim text).data.isEmpty then
    ([], Except.ok ({ translatedText := "",
                       detectedLanguage := sourceLanguage,
                       confidence := 0 } : MtResult))
  else
    let req : MtRequest :=
      { text := text,
        sourceLang := mapLanguageForDeepL sourceLanguage,
        targetLang := mapLanguageForDeepL targetLanguage,
        timeoutMs := 10000 }
    match outcome with
    | MtHttpOutcome.success ts =>
      match ts with
      | [] => ([req], Except.error MtError.noTranslation)
      | t :: _ =>
        ([req], Except.ok ({ translatedText := t,
                             detectedLanguage := sourceLanguage,
                             confidence := 1 } : MtResult))
    | MtHttpOutcome.httpError status =>
      if status = 456 then
        ([req], Except.error MtError.quotaExceeded)
      else if status = 403 then
        ([req], Except.error MtError.apiKeyInvalid)
      else
        ([req], Except.error (MtError.apiError status))
    | MtHttpOutcome.networkError =>
      ([req], Except.error MtError.networkNoResponse)

/-- C6 is false as stated: a network failure is *not* retried —
`translate` issues exactly one provider request and surfaces the
error immediately (the claim requires a second request). -/
theorem translate_network_error_not_retried :
    (translate "hello" "en" "tr" MtHttpOutcome.networkError).1.length
      = 1 ∧
    (translate "hello" "en" "tr"
      MtHttpOutcome.networkError).2 =
      Except.error MtError.networkNoResponse ∧
    ¬ (translate "hello" "en" "tr"
      MtHttpOutcome.networkError).1.length = 2 := by
  refine ⟨by decide, rfl, by decide⟩

/-- C6 (amended): every `translate` call on non-empty text issues
exactly one provider request, bounded by a 10 s timeout; quota
exhaustion (456) and invalid auth (403) are surfaced as errors with
no retry; network failures and 5xx responses are also surfaced
immediately with no retry (still a single request); and empty text
produces an empty result with no provider request at all. -/
theorem translate_request_discipline (text sourceLang targetLang :
    String) (outcome : MtHttpOutcome) :
    (¬ (jsTrim text).data.isEmpty = true →
      (translate text sourceLang targetLang outcome).1.length = 1 ∧
      (∀ r ∈ (translate text sourceLang targetLang outcome).1,
        r.timeoutMs = 10000) ∧
      (outcome = MtHttpOutcome.httpError 456 →
        (translate text sourceLang targetLang outcome).2 =
          Except.error MtError.quotaExceeded) ∧
      (outcome = MtHttpOutcome.httpError 403 →
        (translate text sourceLang targetLang outcome).2 =
          Except.error MtError.apiKeyInvalid) ∧
      (outcome = MtHttpOutcome.networkError →
        (translate text sourceLang targetLang outcome).2 =
          Except.error MtError.networkNoResponse) ∧
      (∀ status, ¬ status = 456 → ¬ status = 403 →
        outcome = MtHttpOutcome.httpError status →
        (translate text sourceLang targetLang outcome).2 =
          Except.error (MtError.apiError status))) ∧
    ((jsTrim text).data.isEmpty = true →
      (translate text sourceLang targetLang outcome).1 = [] ∧
      (translate text sourceLang targetLang outcome).2 =
        Except.ok ({ translatedText := "",
                     detectedLanguage := sourceLang,
                     confidence := 0 } : MtResult)) := by
  constructor
  · intro hne
    unfold translate
    rw [if_neg (by simpa using hne)]
    refine ⟨?_, ?_, ?_, ?_, ?_, ?_⟩
    · cases outcome with
      | success ts => cases ts <;> rfl
      | httpError status =>
        by_cases h456 : status = 456
        · simp [h456]
        · by_cases h403 : status = 403 <;> simp [h456, h403]
      | networkError => rfl
    · intro r hr
      cases outcome with
      | success ts =>
        cases ts <;> simp_all
      | httpError status =>
        by_cases h456 : status = 456
        · simp_all
        · by_cases h403 : status = 403 <;> simp_all
      | networkError => simp_all
    · intro h; subst h; simp
    · intro h; subst h; simp
    · intro h; subst h; rfl
    · intro status h456 h403 h
      subst h
      simp [h456, h403]
  · intro he
    unfold translate
    rw [if_pos he]
    exact ⟨rfl, rfl⟩

theorem translate_request_discipline_witness :
    (translate "hello" "en" "tr"
      (MtHttpOutcome.httpError 456)).1.length = 1 ∧
    (∀ r ∈ (translate "hello" "en" "tr"
      (MtHttpOutcome.httpError 456)).1, r.timeoutMs = 10000) ∧
    (MtHttpOutcome.httpError 456 = MtHttpOutcome.httpError 456 →
      (translate "hello" "en" "tr"
        (MtHttpOutcome.httpError 456)).2 =
        Except.error MtError.quotaExceeded) ∧
    (MtHttpOutcome.httpError 456 = MtHttpOutcome.httpError 403 →
      (translate "hello" "en" "tr"
        (MtHttpOutcome.httpError 456)).2 =
        Except.error MtError.apiKeyInvalid) ∧
    (MtHttpOutcome.httpError 456 = MtHttpOutcome.networkError →
      (translate "hello" "en" "tr"
        (MtHttpOutcome.httpError 456)).2 =
        Except.error MtError.networkNoResponse) ∧
    (∀ status, ¬ status = 456 → ¬ status = 403 →
      MtHttpOutcome.httpError 456 = MtHttpOutcome.httpError status →
      (translate "hello" "en" "tr"
        (MtHttpOutcome.httpError 456)).2 =
        Except.error (MtError.apiError status)) :=
  (translate_request_discipline "hello" "en" "tr"
    (MtHttpOutcome.httpError 456)).1 (by decide)

/-! ## TTS client deduplication cache
(`StreamingSynthesisService.synthesizeChunk` / `cleanCache`) -/

structure CacheEntry where
  result : Option String  -- base64 audio bytes (`null` when empty)
  timestamp : Nat
  deriving Repr, DecidableEq

abbrev SynthCache := List (String × CacheEntry)

/-- The emotion bucket of a cache key:
`primaryEmotion-intensity.toFixed(1)`, or `"neutral"`. -/
structure EmotionBucket where
  primaryEmotion : String
  intensityBucket : String  -- `intensity.toFixed(1)`
  deriving Repr, DecidableEq

def emotionKeyOf : Option EmotionBucket → String
  | some e => e.primaryEmotion ++ "-" ++ e.intensityBucket
  | none => "neutral"

/-- `${voiceId}-${trimmedText}-${language}`. -/
def baseKeyOf (voiceId trimmed language : String) : String :=
  voiceId ++ "-" ++ trimmed ++ "-" ++ language

/-- `${voiceId}-${trimmedText}-${language}-${emotionKey}`. -/
def cacheKeyOf (voiceId trimmed language emoKey : String) : String :=
  baseKeyOf voiceId trimmed language ++ "-" ++ emoKey

/-- `cleanCache()`: drop entries older than 10 s. -/
def cleanCache (cache : SynthCache) (now : Nat) : SynthCache :=
  cache.filter (fun kv => ¬ now - kv.2.timestamp > 10000)

inductive SynthOutcome where
  | cacheHit (key : String)
  | synthesized
  | failed
  deriving Repr, DecidableEq

/-- `synthesizeChunk(voiceId, text, language, emotionalProfile)`.
The provider call (`synthesizeWithRetry`) is the `provider`
parameter: `Except.ok bytes` for a response, `Except.error` for a
thrown error.  Returns the result, the updated cache, and how the
result was obtained. -/
def synthesizeChunk (cache : SynthCache)
    (voiceId text language : String) (emo : Option EmotionBucket)
    (now : Nat) (provider : Except Unit (Option String)) :
    Except Unit (Option String) × SynthCache × SynthOutcome :=
  let trimmed := jsTrim text
  let key := cacheKeyOf voiceId trimmed language (emotionKeyOf emo)
  let exactFresh : Option CacheEntry :=
    match jsGet cache key with
    | some e => if now - e.timestamp < 5000 then some e else none
    | none => none
  match exactFresh with
  | some e => (Except.ok e.result, cache, SynthOutcome.cacheHit key)
  | none =>
    match cache.find? (fun kv =>
        jsStartsWith kv.1 (baseKeyOf voiceId trimmed language) &&
        now - kv.2.timestamp < 3000) with
    | some kv =>
      (Except.ok kv.2.result, cache, SynthOutcome.cacheHit kv.1)
    | none =>
      match provider with
      | Except.ok res =>
        (Except.ok res,
          cleanCache (jsSet cache key
            { result := res, timestamp := now }) now,
          SynthOutcome.synthesized)
      | Except.error e => (Except.error e, cache, SynthOutcome.failed)

/-! Cache-shape lemmas. -/

theorem jsGet_eq_none {α β : Type} [DecidableEq α] {m : List (α × β)}
    {k : α} (h : ∀ kv ∈ m, ¬ (kv : α × β).1 = k) :
    jsGet m k = none := by
  unfold jsGet
  rw [List.find?_eq_none.mpr]
  · rfl
  · intro kv hkv
    simp [h kv hkv]

theorem jsSet_append {α β : Type} [DecidableEq α] {m : List (α × β)}
    {k : α} {v : β} (h : ∀ kv ∈ m, ¬ (kv : α × β).1 = k) :
    jsSet m k v = m ++ [(k, v)] := by
  induction m with
  | nil => rfl
  | cons kw rest ih =>
    have hk : ¬ kw.1 = k := h kw (List.mem_cons_self _ _)
    simp only [jsSet, hk, if_false, List.cons_append, List.cons.injEq,
      true_and]
    exact ih (fun kv hkv => h kv (List.mem_cons_of_mem _ hkv))

theorem jsGet_append_singleton {α β : Type} [DecidableEq α]
    {m : List (α × β)} {k : α} {v : β}
    (h : ∀ kv ∈ m, ¬ (kv : α × β).1 = k) :
    jsGet (m ++ [(k, v)]) k = some v := by
  induction m with
  | nil => simp [jsGet, List.find?]
  | cons kw rest ih =>
    have hk : ¬ kw.1 = k := h kw (List.mem_cons_self _ _)
    have ih2 := ih (fun kv hkv => h kv (List.mem_cons_of_mem _ hkv))
    unfold jsGet at ih2 ⊢
    simp only [List.cons_append, List.find?]
    rw [show decide (kw.1 = k) = false by simpa using hk]
    exact ih2

theorem find?_append_left_none {α : Type} {p : α → Bool}
    {l₁ l₂ : List α} (h : l₁.find? p = none) :
    (l₁ ++ l₂).find? p = l₂.find? p := by
  induction l₁ with
  | nil => rfl
  | cons a rest ih =>
    simp only [List.find?] at h ⊢
    cases hp : p a with
    | true => rw [hp] at h; simp at h
    | false =>
      rw [hp] at h
      simp only [List.cons_append, List.find?, hp]
      exact ih h

/-- A key built by appending to the base key starts with the base
key. -/
theorem startsWith_of_append (base s : String) :
    jsStartsWith (base ++ s) base = true := by
  unfold jsStartsWith
  rw [List.isPrefixOf_iff_prefix]
  exact ⟨s.data, (String.data_append base s).symm⟩

/-- C5 is false as stated: the 3 s window is measured from the
creation of the cache entry, not from the previous call.  With an
entry 4 s old, a first call at `t = 4000` is served from the cache
(returning `"B0"`), and a second identical call only 2.5 s later
misses every window and re-synthesizes, returning different bytes
`"B1"`. -/
theorem synth_cache_claim_false :
    (synthesizeChunk
      [(cacheKeyOf "v" "hi" "en" "neutral",
        { result := some "B0", timestamp := 0 })]
      "v" "hi" "en" none 4000 (Except.ok (some "BX"))).1 =
      Except.ok (some "B0") ∧
    (synthesizeChunk
      [(cacheKeyOf "v" "hi" "en" "neutral",
        { result := some "B0", timestamp := 0 })]
      "v" "hi" "en" none 4000 (Except.ok (some "BX"))).2.1 =
      [(cacheKeyOf "v" "hi" "en" "neutral",
        { result := some "B0", timestamp := 0 })] ∧
    (6500 - 4000 < 3000) ∧
    (synthesizeChunk
      [(cacheKeyOf "v" "hi" "en" "neutral",
        { result := some "B0", timestamp := 0 })]
      "v" "hi" "en" none 6500 (Except.ok (some "B1"))).1 =
      Except.ok (some "B1") ∧
    ¬ (some "B1" : Option String) = some "B0" := by
  refine ⟨rfl, rfl, by decide, rfl, by decide⟩

/-- C5 (amended): (a) when the cache holds no entry whose key starts
with the call's `(voice, trimmed-text, language)` base key, a
successful call synthesizes fresh audio and any second call with the
same triple — regardless of emotion bucket — within 3 s returns
byte-identical audio from the cache; (b) every cache hit returns an
entry younger than 5 s (hence never one older than 10 s), and a hit
on any key other than the caller's exact key (the
ignore-emotion-bucket path) returns an entry younger than 3 s. -/
theorem synth_cache_dedup_and_ttl :
    (∀ (cache : SynthCache) (voiceId text language : String)
       (e1 e2 : Option EmotionBucket) (b : String) (t1 t2 : Nat)
       (provider2 : Except Unit (Option String)),
      (∀ kv ∈ cache, jsStartsWith (kv : String × CacheEntry).1
        (baseKeyOf voiceId (jsTrim text) language) = false) →
      t1 ≤ t2 → t2 - t1 < 3000 →
      (synthesizeChunk cache voiceId text language e1 t1
        (Except.ok (some b))).1 = Except.ok (some b) ∧
      (synthesizeChunk (synthesizeChunk cache voiceId text language
          e1 t1 (Except.ok (some b))).2.1
        voiceId text language e2 t2 provider2).1 =
        Except.ok (some b)) ∧
    (∀ (cache : SynthCache) (voiceId text language : String)
       (emo : Option EmotionBucket) (now : Nat)
       (provider : Except Unit (Option String))
       (res : Except Unit (Option String)) (c' : SynthCache)
       (key' : String),
      synthesizeChunk cache voiceId text language emo now provider =
        (res, c', SynthOutcome.cacheHit key') →
      ∃ entry, (key', entry) ∈ cache ∧
        now - entry.timestamp < 5000 ∧
        now - entry.timestamp < 10000 ∧
        res = Except.ok entry.result ∧
        (¬ key' = cacheKeyOf voiceId (jsTrim text) language
          (emotionKeyOf emo) → now - entry.timestamp < 3000)) := by
  constructor
  · intro cache voiceId text language e1 e2 b t1 t2 provider2
      hclean hmono ht
    have hkeys : ∀ kv ∈ cache, ¬ (kv : String × CacheEntry).1 =
        cacheKeyOf voiceId (jsTrim text) language
          (emotionKeyOf e1) := by
      intro kv hkv heq
      have h1 := hclean kv hkv
      rw [heq] at h1
      unfold cacheKeyOf at h1
      rw [String.append_assoc, startsWith_of_append] at h1
      exact Bool.true_eq_false.mp h1
    have hget1 : jsGet cache (cacheKeyOf voiceId (jsTrim text)
        language (emotionKeyOf e1)) = none := jsGet_eq_none hkeys
    have hloop1 : cache.find? (fun kv =>
        jsStartsWith kv.1 (baseKeyOf voiceId (jsTrim text)
          language) && decide (t1 - kv.2.timestamp < 3000)) =
        none := by
      rw [List.find?_eq_none]
      intro kv hkv
      simp [hclean kv hkv]
    have hc1 : (synthesizeChunk cache voiceId text language e1 t1
        (Except.ok (some b))) = (Except.ok (some b),
        cleanCache (jsSet cache
          (cacheKeyOf voiceId (jsTrim text) language
            (emotionKeyOf e1))
          { result := some b, timestamp := t1 }) t1,
        SynthOutcome.synthesized) := by
      unfold synthesizeChunk
      dsimp only
      rw [hget1, hloop1]
    have hcleanc : cleanCache (jsSet cache
        (cacheKeyOf voiceId (jsTrim text) language
          (emotionKeyOf e1))
        { result := some b, timestamp := t1 }) t1 =
        cache.filter (fun kv =>
          decide (¬ t1 - kv.2.timestamp > 10000)) ++
        [(cacheKeyOf voiceId (jsTrim text) language
            (emotionKeyOf e1),
          { result := some b, timestamp := t1 })] := by
      rw [jsSet_append hkeys]
      unfold cleanCache
      rw [List.filter_append]
      simp
    have hfsub : ∀ kv ∈ cache.filter (fun kv =>
        decide (¬ t1 - kv.2.timestamp > 10000)), kv ∈ cache := by
      intro kv hkv
      exact List.mem_of_mem_filter hkv
    refine ⟨by rw [hc1], ?_⟩
    rw [hc1]
    simp only
    rw [hcleanc]
    by_cases hk : cacheKeyOf voiceId (jsTrim text) language
        (emotionKeyOf e2) = cacheKeyOf voiceId (jsTrim text)
        language (emotionKeyOf e1)
    · -- same emotion bucket: exact-key hit on the fresh entry
      have hget2 : jsGet (cache.filter (fun kv =>
          decide (¬ t1 - kv.2.timestamp > 10000)) ++
          [(cacheKeyOf voiceId (jsTrim text) language
              (emotionKeyOf e1),
            { result := some b, timestamp := t1 })])
          (cacheKeyOf voiceId (jsTrim text) language
            (emotionKeyOf e1)) =
          some { result := some b, timestamp := t1 } :=
        jsGet_append_singleton
          (fun kv hkv => hkeys kv (hfsub kv hkv))
      unfold synthesizeChunk
      dsimp only
      rw [hk, hget2]
      dsimp only
      rw [if_pos (show t2 - t1 < 5000 by omega)]
    · -- different bucket: served through the base-key scan
      have hkeys2 : ∀ kv ∈ cache.filter (fun kv =>
          decide (¬ t1 - kv.2.timestamp > 10000)) ++
          [(cacheKeyOf voiceId (jsTrim text) language
              (emotionKeyOf e1),
            { result := some b, timestamp := t1 })],
          ¬ (kv : String × CacheEntry).1 =
            cacheKeyOf voiceId (jsTrim text) language
              (emotionKeyOf e2) := by
        intro kv hkv
        rcases List.mem_append.mp hkv with h | h
        · intro heq
          have h1 := hclean kv (hfsub kv h)
          rw [heq] at h1
          unfold cacheKeyOf at h1
          rw [String.append_assoc, startsWith_of_append] at h1
          exact Bool.true_eq_false.mp h1
        · simp only [List.mem_singleton] at h
          rw [h]
          simpa using fun heq => hk heq.symm
      have hget2 : jsGet (cache.filter (fun kv =>
          decide (¬ t1 - kv.2.timestamp > 10000)) ++
          [(cacheKeyOf voiceId (jsTrim text) language
              (emotionKeyOf e1),
            { result := some b, timestamp := t1 })])
          (cacheKeyOf voiceId (jsTrim text) language
            (emotionKeyOf e2)) = none := jsGet_eq_none hkeys2
      have hfilterloop : (cache.filter (fun kv =>
          decide (¬ t1 - kv.2.timestamp > 10000))).find?
          (fun kv => jsStartsWith kv.1
            (baseKeyOf voiceId (jsTrim text) language) &&
            decide (t2 - kv.2.timestamp < 3000)) = none := by
        rw [List.find?_eq_none]
        intro kv hkv
        simp [hclean kv (hfsub kv hkv)]
      have hpred : (fun (kv : String × CacheEntry) =>
          jsStartsWith kv.1
            (baseKeyOf voiceId (jsTrim text) language) &&
          decide (t2 - kv.2.timestamp < 3000))
          (cacheKeyOf voiceId (jsTrim text) language
            (emotionKeyOf e1),
           { result := some b, timestamp := t1 }) = true := by
        simp only
        unfold cacheKeyOf
        rw [String.append_assoc, startsWith_of_append]
        simpa using ht
      unfold synthesizeChunk
      dsimp only
      rw [hget2]
      rw [find?_append_left_none hfilterloop]
      simp only [List.find?, hpred]
  · intro cache voiceId text language emo now provider res c' key' h
    unfold synthesizeChunk at h
    dsimp only at h
    cases hget : jsGet cache
        (cacheKeyOf voiceId (jsTrim text) language
          (emotionKeyOf emo)) with
    | some e =>
      rw [hget] at h
      dsimp only at h
      by_cases hage : now - e.timestamp < 5000
      · rw [if_pos hage] at h
        dsimp only at h
        simp only [Prod.mk.injEq, SynthOutcome.cacheHit.injEq] at h
        refine ⟨e, ?_, ?_, ?_, ?_, ?_⟩
        · rw [← h.2.2]; exact jsGet_mem hget
        · exact hage
        · omega
        · exact h.1.symm
        · intro hne; exact absurd h.2.2.symm hne
      · rw [if_neg hage] at h
        dsimp only at h
        cases hfind : cache.find? (fun kv =>
            jsStartsWith kv.1
              (baseKeyOf voiceId (jsTrim text) language) &&
            now - kv.2.timestamp < 3000) with
        | some kv =>
          rw [hfind] at h
          dsimp only at h
          simp only [Prod.mk.injEq, SynthOutcome.cacheHit.injEq] at h
          have hp := List.find?_some hfind
          simp only [Bool.and_eq_true, decide_eq_true_eq] at hp
          refine ⟨kv.2, ?_, by omega, by omega, h.1.symm, fun _ =>
            hp.2⟩
          rw [← h.2.2]
          have := List.mem_of_find?_eq_some hfind
          simpa using this
        | none =>
          rw [hfind] at h
          dsimp only at h
          cases provider with
          | ok r => simp at h
          | error e2 => simp at h
    | none =>
      rw [hget] at h
      dsimp only at h
      cases hfind : cache.find? (fun kv =>
          jsStartsWith kv.1
            (baseKeyOf voiceId (jsTrim text) language) &&
          now - kv.2.timestamp < 3000) with
      | some kv =>
        rw [hfind] at h
        dsimp only at h
        simp only [Prod.mk.injEq, SynthOutcome.cacheHit.injEq] at h
        have hp := List.find?_some hfind
        simp only [Bool.and_eq_true, decide_eq_true_eq] at hp
        refine ⟨kv.2, ?_, by omega, by omega, h.1.symm, fun _ =>
          hp.2⟩
        rw [← h.2.2]
        have := List.mem_of_find?_eq_some hfind
        simpa using this
      | none =>
        rw [hfind] at h
        dsimp only at h
        cases provider with
        | ok r => simp at h
        | error e2 => simp at h

theorem synth_cache_dedup_and_ttl_witness :
    (synthesizeChunk [] "v" "hello there" "en" none 0
      (Except.ok (some "BYTES"))).1 = Except.ok (some "BYTES") ∧
    (synthesizeChunk (synthesizeChunk [] "v" "hello there" "en" none
        0 (Except.ok (some "BYTES"))).2.1
      "v" "hello there" "en"
      (some { primaryEmotion := "happy", intensityBucket := "0.7" })
      1000 (Except.ok (some "OTHER"))).1 =
      Except.ok (some "BYTES") :=
  synth_cache_dedup_and_ttl.1 [] "v" "hello there" "en" none
    (some { primaryEmotion := "happy", intensityBucket := "0.7" })
    "BYTES" 0 1000 (Except.ok (some "OTHER"))
    (by intro kv hkv; cases hkv) (by decide) (by decide)

/-! ## Session registry (`sessionManager.js`)

JS objects are aliased: the same user object is reachable from
`this.users`, the waiting lists and `session.doctor` / `.patient`.
The model therefore keeps a heap `userHeap : ref ↦ User` and stores
refs everywhere else, so that an in-place mutation through one alias
is visible through all of them — exactly as in the source. -/

structure User where
  socketId : String
  role : String
  language : String
  voiceId : String
  socket : String  -- transport handle (always present in the source)
  sessionId : Option String
  deriving Repr, DecidableEq

inductive SessStatus where
  | pending
  | active
  | ended
  deriving Repr, DecidableEq

structure Sess where
  id : String
  doctor : Option Nat   -- heap ref
  patient : Option Nat  -- heap ref
  status : SessStatus
  deriving Repr, DecidableEq

structure Registry where
  userHeap : List (Nat × User)
  users : List (String × Nat)        -- `this.users`
  sessions : List (String × Sess)    -- `this.sessions`
  waitingDoctors : List Nat          -- refs
  waitingPatients : List Nat
  nextRef : Nat
  deriving Repr, DecidableEq

/-- Mutate the user object behind a ref, when it exists. -/
def heapUpdate (heap : List (Nat × User)) (r : Nat)
    (f : User → User) : List (Nat × User) :=
  match jsGet heap r with
  | some u => jsSet heap r (f u)
  | none => heap

/-- `p.language !== language`, read through the heap. -/
def langDiffers (heap : List (Nat × User)) (p : Nat)
    (language : String) : Bool :=
  match jsGet heap p with
  | some u => ¬ u.language = language
  | none => false

/-- The `findIndex`+`splice` scan over a waiting list: the first ref
whose user's language differs, with its index. -/
def findFirstDifferent (heap : List (Nat × User)) :
    List Nat → String → Option (Nat × Nat)
  | [], _ => none
  | p :: rest, language =>
    if langDiffers heap p language then
      some (0, p)
    else
      (findFirstDifferent heap rest language).map
        (fun iq => (iq.1 + 1, iq.2))

inductive AddResult where
  | session (id : String)
  | invalidRole
  deriving Repr, DecidableEq

/-- `createSession(doctor, patient)` (both refs): an `active` session
holding exactly the two refs; both users' `sessionId` is set. -/
def createSession (st : Registry) (doctorRef patientRef : Nat)
    (sessionId : String) : Registry :=
  let sess : Sess := { id := sessionId, doctor := some doctorRef,
                       patient := some patientRef,
                       status := SessStatus.active }
  let heap1 := heapUpdate st.userHeap doctorRef
    (fun u => { u with sessionId := some sessionId })
  let heap2 := heapUpdate heap1 patientRef
    (fun u => { u with sessionId := some sessionId })
  { st with userHeap := heap2,
            sessions := jsSet st.sessions sessionId sess }

/-- `createPendingSession(user)`. -/
def createPendingSession (st : Registry) (userRef : Nat)
    (role : String) (sessionId : String) : Registry :=
  let sess : Sess :=
    { id := sessionId,
      doctor := if role = "doctor" then some userRef else none,
      patient := if ¬ role = "doctor" then some userRef else none,
      status := SessStatus.pending }
  { st with sessions := jsSet st.sessions sessionId sess }

/-- The non-reconnect remainder of `addUser` (from the
`// Create user object` comment on): store the user, match against
the opposite waiting list, else enqueue. -/
def addUserFresh (st : Registry)
    (socketId role language voiceId socket : String)
    (freshSessionId : String) : Registry × AddResult :=
  let newRef := st.nextRef
  let user : User := { socketId := socketId, role := role,
                       language := language, voiceId := voiceId,
                       socket := socket, sessionId := none }
  let heapF := jsSet st.userHeap newRef user
  let usersF := jsSet st.users socketId newRef
  let st1 := { st with userHeap := heapF, users := usersF,
                       nextRef := st.nextRef + 1 }
  if role = "doctor" then
    match findFirstDifferent st1.userHeap st1.waitingPatients
        language with
    | some iq =>
      let st2 := { st1 with
        waitingPatients := st1.waitingPatients.eraseIdx iq.1 }
      let st3 := createSession st2 newRef iq.2 freshSessionId
      -- line 101: `user.sessionId = session.id` (already set)
      let heap4 := heapUpdate st3.userHeap newRef
        (fun u => { u with sessionId := some freshSessionId })
      let st4 := { st3 with userHeap := heap4 }
      (st4, AddResult.session freshSessionId)
    | none =>
      let st2 := { st1 with
        waitingDoctors := st1.waitingDoctors ++ [newRef] }
      let st3 := createPendingSession st2 newRef role freshSessionId
      let heap4 := heapUpdate st3.userHeap newRef
        (fun u => { u with sessionId := some freshSessionId })
      let st4 := { st3 with userHeap := heap4 }
      (st4, AddResult.session freshSessionId)
  else if role = "patient" then
    match findFirstDifferent st1.userHeap st1.waitingDoctors
        language with
    | some iq =>
      let st2 := { st1 with
        waitingDoctors := st1.waitingDoctors.eraseIdx iq.1 }
      let st3 := createSession st2 iq.2 newRef freshSessionId
      let heap4 := heapUpdate st3.userHeap newRef
        (fun u => { u with sessionId := some freshSessionId })
      let st4 := { st3 with userHeap := heap4 }
      (st4, AddResult.session freshSessionId)
    | none =>
      let st2 := { st1 with
        waitingPatients := st1.waitingPatients ++ [newRef] }
      let st3 := createPendingSession st2 newRef role freshSessionId
      let heap4 := heapUpdate st3.userHeap newRef
        (fun u => { u with sessionId := some freshSessionId })
      let st4 := { st3 with userHeap := heap4 }
      (st4, AddResult.session freshSessionId)
  else
    -- `throw new Error('Invalid role...')` — the user object is
    -- already stored at this point
    (st1, AddResult.invalidRole)

/-- The user object matches the `(role, language, voiceId)` triple. -/
def matchesTriple (heap : List (Nat × User)) (r : Nat)
    (role language voiceId : String) : Bool :=
  match jsGet heap r with
  | some u =>
    u.role = role && u.language = language && u.voiceId = voiceId
  | none => false

/-- The reconnect scan of `addUser`:
`Array.from(this.users.values()).find(...)` over the map values in
insertion order. -/
def findReconnectRef (st : Registry)
    (role language voiceId : String) : Option Nat :=
  (st.users.map (·.2)).find? (fun r =>
    matchesTriple st.userHeap r role language voiceId)

/-- `addUser(socketId, {role, language, voiceId, socket})` in full:
reconnect path first (transport swap with the out-of-order
`users.delete`), then the fresh-user path. -/
def addUser (st : Registry)
    (socketId role language voiceId socket : String)
    (freshSessionId : String) : Registry × AddResult :=
  match findReconnectRef st role language voiceId with
  | some r =>
    match jsGet st.userHeap r with
    | some existingUser =>
      match existingUser.sessionId with
      | some sid =>
        -- transport swap: mutate the object, then
        -- `users.delete(existingUser.socketId)` — which at this
        -- point is already the NEW socket id — then `users.set`
        let heap1 := jsSet st.userHeap r
          { existingUser with socketId := socketId, socket := socket }
        let users1 := jsDelete st.users socketId
        let users2 := jsSet users1 socketId r
        let st1 := { st with userHeap := heap1, users := users2 }
        match jsGet st1.sessions sid with
        | some sess =>
          let heap2 :=
            match sess.doctor with
            | some dr =>
              (match jsGet st1.userHeap dr with
               | some du =>
                 if du.socketId = socketId then
                   jsSet st1.userHeap dr
                     { du with socket := socket, socketId := socketId }
                 else st1.userHeap
               | none => st1.userHeap)
            | none => st1.userHeap
          let heap3 :=
            match sess.patient with
            | some pr =>
              (match jsGet heap2 pr with
               | some pu =>
                 if pu.socketId = socketId then
                   jsSet heap2 pr
                     { pu with socket := socket, socketId := socketId }
                 else heap2
               | none => heap2)
            | none => heap2
          ({ st1 with userHeap := heap3 }, AddResult.session sess.id)
        | none =>
          addUserFresh st1 socketId role language voiceId socket
            freshSessionId
      | none =>
        addUserFresh st socketId role language voiceId socket
          freshSessionId
    | none =>
      addUserFresh st socketId role language voiceId socket
        freshSessionId
  | none =>
    addUserFresh st socketId role language voiceId socket
      freshSessionId

/-! ## `removeUser`, lookups, and the transport disconnect handler -/

inductive RegMsg where
  | partnerDisconnected (target : String)
  | waitingForPartner (target : String)
  deriving Repr, DecidableEq

/-- Does the user behind this ref carry this socket id?  (Used by the
waiting-list filters.) -/
def refHasSocketId (heap : List (Nat × User)) (r : Nat)
    (socketId : String) : Bool :=
  match jsGet heap r with
  | some u => u.socketId = socketId
  | none => false

/-- `removeUser(socketId)`: drop the user from the waiting lists, end
or delete its session — notifying and requeueing the partner of an
active session — and remove it from the registry.  Returns the new
state and the messages emitted, in order. -/
def removeUser (st : Registry) (socketId : String) :
    Registry × List RegMsg :=
  match jsGet st.users socketId with
  | none => (st, [])
  | some r =>
    match jsGet st.userHeap r with
    | none => (st, [])
    | some user =>
      let wd := st.waitingDoctors.filter
        (fun d => ¬ refHasSocketId st.userHeap d socketId)
      let wp := st.waitingPatients.filter
        (fun p => ¬ refHasSocketId st.userHeap p socketId)
      let st1 := { st with waitingDoctors := wd,
                           waitingPatients := wp }
      let cleaned : Registry × List RegMsg :=
        match user.sessionId with
        | none => (st1, [])
        | some sid =>
          match jsGet st1.sessions sid with
          | none => (st1, [])
          | some sess =>
            if sess.status = SessStatus.pending then
              ({ st1 with sessions := jsDelete st1.sessions sid }, [])
            else if sess.status = SessStatus.active then
              let otherRef := if user.role = "doctor" then
                sess.patient else sess.doctor
              let msgs1 :=
                match otherRef with
                | some oref =>
                  (match jsGet st1.userHeap oref with
                   | some other =>
                     [RegMsg.partnerDisconnected other.socket]
                   | none => [])
                | none => []
              let sess2 := { sess with status := SessStatus.ended }
              let st2 := { st1 with
                sessions := jsSet st1.sessions sid sess2 }
              match otherRef with
              | some oref =>
                (match jsGet st2.userHeap oref with
                 | some other =>
                   let heap2 := jsSet st2.userHeap oref
                     { other with sessionId := none }
                   let st3 :=
                     if other.role = "doctor" then
                       { st2 with userHeap := heap2, waitingDoctors := st2.waitingDoctors ++ [oref] }
                     else
                       { st2 with userHeap := heap2, waitingPatients := st2.waitingPatients ++ [oref] }
                   (st3, msgs1 ++
                     [RegMsg.waitingForPartner other.socket])
                 | none => (st2, msgs1))
              | none => (st2, msgs1)
            else (st1, [])
      let st4 := cleaned.1
      ({ st4 with users := jsDelete st4.users socketId }, cleaned.2)

/-- `getUser(socketId)`. -/
def getUser (st : Registry) (socketId : String) : Option User :=
  match jsGet st.users socketId with
  | some r => jsGet st.userHeap r
  | none => none

/-- `getSession(sessionId)`. -/
def getSession (st : Registry) (sessionId : String) : Option Sess :=
  jsGet st.sessions sessionId

/-- `getPartnerInfo(socketId)`: partner data of a user in an active
session. -/
def getPartnerInfo (st : Registry) (socketId : String) :
    Option User :=
  match getUser st socketId with
  | none => none
  | some user =>
    match user.sessionId with
    | none => none
    | some sid =>
      match jsGet st.sessions sid with
      | none => none
      | some sess =>
        if sess.status = SessStatus.active then
          match (if user.role = "doctor" then sess.patient
                 else sess.doctor) with
          | some pr => jsGet st.userHeap pr
          | none => none
        else none

/-- The `socket.on('disconnect')` handler of `index.js`: notify the
partner directly, then call `removeUser` (which notifies again).
(The streaming-pipeline teardown emits no registry messages and is
not modelled here.) -/
def disconnectHandler (st : Registry) (socketId : String) :
    Registry × List RegMsg :=
  let handlerMsgs :=
    match getUser st socketId with
    | none => []
    | some user =>
      match getPartnerInfo st socketId with
      | none => []
      | some _ =>
        match user.sessionId with
        | none => []
        | some sid =>
          match getSession st sid with
          | none => []
          | some sess =>
            let partnerSocket :=
              match (if user.role = "doctor" then sess.patient
                     else sess.doctor) with
              | some pr =>
                (match jsGet st.userHeap pr with
                 | some pu => some pu.socket
                 | none => none)
              | none => none
            match partnerSocket with
            | some s => [RegMsg.partnerDisconnected s]
            | none => []
  let removed := removeUser st socketId
  (removed.1, handlerMsgs ++ removed.2)

/-! ## Registry lemmas -/

theorem jsGet_jsSet_ne {α β : Type} [DecidableEq α]
    (m : List (α × β)) (k : α) (v : β) (k' : α) (h : ¬ k' = k) :
    jsGet (jsSet m k v) k' = jsGet m k' := by
  have hkk : decide (k = k') = false := by
    simpa using fun e => h e.symm
  induction m with
  | nil =>
    unfold jsSet jsGet
    simp only [List.find?, hkk]
  | cons kw rest ih =>
    by_cases hk : kw.1 = k
    · have hkw : decide (kw.1 = k') = false := by
        rw [hk]; exact hkk
      unfold jsSet
      rw [if_pos hk]
      unfold jsGet
      simp only [List.find?, hkk, hkw]
    · unfold jsSet
      rw [if_neg hk]
      unfold jsGet at ih ⊢
      simp only [List.find?]
      cases hkw : decide (kw.1 = k') with
      | true => rfl
      | false => exact ih

theorem jsGet_heapUpdate_self (heap : List (Nat × User)) (r : Nat)
    (f : User → User) (u : User) (h : jsGet heap r = some u) :
    jsGet (heapUpdate heap r f) r = some (f u) := by
  unfold heapUpdate
  rw [h]
  exact jsGet_jsSet_self heap r (f u)

theorem jsGet_heapUpdate_ne (heap : List (Nat × User)) (r : Nat)
    (f : User → User) (r' : Nat) (h : ¬ r' = r) :
    jsGet (heapUpdate heap r f) r' = jsGet heap r' := by
  unfold heapUpdate
  cases hr : jsGet heap r with
  | none => rfl
  | some u => exact jsGet_jsSet_ne heap r (f u) r' h

/-! ## C7: reconnection transport swap -/

def regUserA : User :=
  { socketId := "s1", role := "doctor", language := "tr",
    voiceId := "v1", socket := "h1", sessionId := some "sess1" }

def regUserB : User :=
  { socketId := "s2", role := "patient", language := "en",
    voiceId := "v2", socket := "h2", sessionId := some "sess1" }

def regSess0 : Sess :=
  { id := "sess1", doctor := some 0, patient := some 1,
    status := SessStatus.active }

def reg0 : Registry :=
  { userHeap := [(0, regUserA), (1, regUserB)],
    users := [("s1", 0), ("s2", 1)],
    sessions := [("sess1", regSess0)],
    waitingDoctors := [], waitingPatients := [], nextRef := 2 }

/-- C7: at the concrete failing input — doctor `(tr, v1)` with old
socket id `"s1"` reconnecting under new socket id `"s9"` — the swap
does return the existing session, swaps only the transport fields,
and leaves sessions and waiting lists untouched; but the registry
afterwards holds the participant under BOTH `"s1"` and `"s9"`: the
`users.delete(existingUser.socketId)` runs after `socketId` has
already been overwritten, so it deletes the new key instead of the
old one and the stale key survives. -/
theorem reconnect_keeps_stale_socket_key :
    (addUser reg0 "s9" "doctor" "tr" "v1" "h9" "freshX").2 =
      AddResult.session "sess1" ∧
    (addUser reg0 "s9" "doctor" "tr" "v1" "h9" "freshX").1.users =
      [("s1", 0), ("s2", 1), ("s9", 0)] ∧
    ((addUser reg0 "s9" "doctor" "tr" "v1" "h9"
      "freshX").1.users.filter (fun kv => kv.2 = 0)).length = 2 ∧
    jsGet (addUser reg0 "s9" "doctor" "tr" "v1" "h9"
      "freshX").1.userHeap 0 =
      some { socketId := "s9", role := "doctor", language := "tr",
             voiceId := "v1", socket := "h9",
             sessionId := some "sess1" } ∧
    jsGet (addUser reg0 "s9" "doctor" "tr" "v1" "h9"
      "freshX").1.userHeap 1 = some regUserB ∧
    (addUser reg0 "s9" "doctor" "tr" "v1" "h9"
      "freshX").1.sessions = reg0.sessions ∧
    (addUser reg0 "s9" "doctor" "tr" "v1" "h9"
      "freshX").1.waitingDoctors = [] ∧
    (addUser reg0 "s9" "doctor" "tr" "v1" "h9"
      "freshX").1.waitingPatients = [] := by
  refine ⟨by decide, by decide, by decide, by decide, by decide,
    by decide, by decide, by decide⟩

/-! ## C10: double partner-disconnected notification -/

/-- C10: when a participant of an active session disconnects, the
partner's transport receives `partner-disconnected` exactly twice:
once from the transport-level handler, once more from inside
`removeUser` (followed by the requeue notification). -/
theorem partner_disconnected_emitted_twice (st : Registry)
    (socketId : String) (r pr : Nat) (u pu : User) (sid : String)
    (sess : Sess)
    (hu : jsGet st.users socketId = some r)
    (hheap : jsGet st.userHeap r = some u)
    (hsid : u.sessionId = some sid)
    (hsess : jsGet st.sessions sid = some sess)
    (hact : sess.status = SessStatus.active)
    (hpartner : (if u.role = "doctor" then sess.patient
      else sess.doctor) = some pr)
    (hpu : jsGet st.userHeap pr = some pu) :
    (disconnectHandler st socketId).2 =
      [RegMsg.partnerDisconnected pu.socket,
       RegMsg.partnerDisconnected pu.socket,
       RegMsg.waitingForPartner pu.socket] ∧
    ((disconnectHandler st socketId).2.filter
      (fun m => m = RegMsg.partnerDisconnected pu.socket)).length =
      2 := by
  have hmain : (disconnectHandler st socketId).2 =
      [RegMsg.partnerDisconnected pu.socket,
       RegMsg.partnerDisconnected pu.socket,
       RegMsg.waitingForPartner pu.socket] := by
    unfold disconnectHandler
    have hgetUser : getUser st socketId = some u := by
      unfold getUser
      rw [hu]
      dsimp only
      exact hheap
    have hpartnerInfo : getPartnerInfo st socketId = some pu := by
      unfold getPartnerInfo
      rw [hgetUser]
      dsimp only
      rw [hsid]
      dsimp only
      rw [hsess]
      dsimp only
      rw [if_pos hact, hpartner]
      dsimp only
      exact hpu
    have hremove : (removeUser st socketId).2 =
        [RegMsg.partnerDisconnected pu.socket,
         RegMsg.waitingForPartner pu.socket] := by
      unfold removeUser
      rw [hu]
      dsimp only
      rw [hheap]
      dsimp only
      rw [hsid]
      dsimp only
      rw [hsess]
      dsimp only
      rw [if_neg (by rw [hact]; intro hcon; cases hcon)]
      rw [if_pos hact]
      rw [hpartner]
      dsimp only
      rw [hpu]
      dsimp only
      rfl
    rw [hgetUser, hpartnerInfo]
    dsimp only
    rw [hsid]
    dsimp only
    unfold getSession
    rw [hsess]
    dsimp only
    rw [hpartner]
    dsimp only
    rw [hpu]
    dsimp only
    rw [hremove]
    rfl
  refine ⟨hmain, ?_⟩
  rw [hmain]
  simp [List.filter]

/-- C10 witness: in the concrete two-user active registry, the
doctor's disconnect emits exactly the three messages, two of them
`partner-disconnected` to the patient's socket. -/
theorem partner_disconnected_emitted_twice_witness :
    (disconnectHandler reg0 "s1").2 =
      [RegMsg.partnerDisconnected regUserB.socket,
       RegMsg.partnerDisconnected regUserB.socket,
       RegMsg.waitingForPartner regUserB.socket] ∧
    ((disconnectHandler reg0 "s1").2.filter
      (fun m => m = RegMsg.partnerDisconnected
        regUserB.socket)).length = 2 :=
  partner_disconnected_emitted_twice reg0 "s1" 0 1 regUserA regUserB
    "sess1" regSess0 (by decide) (by decide) (by decide) (by decide)
    (by decide) (by decide) (by decide)

/-! ## C2: the pairing policy of `addUser` -/

theorem findFirstDifferent_spec (heap : List (Nat × User))
    (lst : List Nat) (language : String) :
    (∀ i p, findFirstDifferent heap lst language = some (i, p) →
      lst.get? i = some p ∧ langDiffers heap p language = true ∧
      ∀ j q, j < i → lst.get? j = some q →
        langDiffers heap q language = false) ∧
    ((∀ p ∈ lst, langDiffers heap p language = false) →
      findFirstDifferent heap lst language = none) := by
  induction lst with
  | nil =>
    constructor
    · intro i p h
      simp [findFirstDifferent] at h
    · intro _
      rfl
  | cons a rest ih =>
    constructor
    · intro i p h
      simp only [findFirstDifferent] at h
      by_cases ha : langDiffers heap a language = true
      · rw [if_pos ha] at h
        simp only [Option.some.injEq, Prod.mk.injEq] at h
        obtain ⟨hi, hp⟩ := h
        subst hi
        subst hp
        refine ⟨rfl, ha, ?_⟩
        intro j q hj
        omega
      · rw [if_neg ha] at h
        obtain ⟨iq, hiq, heq⟩ := Option.map_eq_some'.mp h
        obtain ⟨i', p'⟩ := iq
        simp only [Prod.mk.injEq] at heq
        obtain ⟨hi, hp⟩ := heq
        subst hi
        subst hp
        have hrec := ih.1 i' p' hiq
        refine ⟨by simpa using hrec.1, hrec.2.1, ?_⟩
        intro j q hj hq
        cases j with
        | zero =>
          simp only [List.get?] at hq
          cases hq
          simpa using ha
        | succ j' =>
          exact hrec.2.2 j' q (by omega) (by simpa using hq)
    · intro hall
      simp only [findFirstDifferent]
      rw [if_neg (by simp [hall a (List.mem_cons_self a rest)])]
      rw [ih.2 (fun p hp => hall p (List.mem_cons_of_mem a hp))]
      rfl

/-- When the reconnect scan finds nothing — or only a matching user
without a session — `addUser` takes the fresh-user path. -/
theorem addUser_eq_fresh (st : Registry)
    (socketId role language voiceId socket freshSessionId : String)
    (h : findReconnectRef st role language voiceId = none ∨
      ∃ r u, findReconnectRef st role language voiceId = some r ∧
        jsGet st.userHeap r = some u ∧ u.sessionId = none) :
    addUser st socketId role language voiceId socket freshSessionId =
      addUserFresh st socketId role language voiceId socket
        freshSessionId := by
  unfold addUser
  rcases h with h | ⟨r, u, hr, hu, hsid⟩
  · rw [h]
  · rw [hr]
    dsimp only
    rw [hu]
    dsimp only
    rw [hsid]

/-- C2: for a non-reconnecting `addUser` with a valid role, if the
opposite-role waiting list contains an entry whose language differs
from the joiner's, the first such entry (in queue order) is removed
and an active session holding exactly the joiner and that entry is
created; otherwise the joiner is appended to its own-role waiting
list and a pending session holding only the joiner is created and
returned.  A joiner whose language matches every opposite-role
waiter's is therefore never paired. -/
theorem addUser_pairing_policy (st : Registry)
    (socketId role language voiceId socket freshSessionId : String)
    (hrole : role = "doctor" ∨ role = "patient")
    (hnorec : findReconnectRef st role language voiceId = none ∨
      ∃ r u, findReconnectRef st role language voiceId = some r ∧
        jsGet st.userHeap r = some u ∧ u.sessionId = none) :
    (∀ i p, findFirstDifferent
        (jsSet st.userHeap st.nextRef
          { socketId := socketId, role := role,
            language := language, voiceId := voiceId,
            socket := socket, sessionId := none })
        (if role = "doctor" then st.waitingPatients
         else st.waitingDoctors) language = some (i, p) →
      (addUser st socketId role language voiceId socket
        freshSessionId).2 = AddResult.session freshSessionId ∧
      jsGet (addUser st socketId role language voiceId socket
          freshSessionId).1.sessions freshSessionId =
        some { id := freshSessionId,
               doctor := some (if role = "doctor" then st.nextRef
                 else p),
               patient := some (if role = "doctor" then p
                 else st.nextRef),
               status := SessStatus.active } ∧
      (if role = "doctor" then st.waitingPatients
       else st.waitingDoctors).get? i = some p ∧
      langDiffers (jsSet st.userHeap st.nextRef
        { socketId := socketId, role := role, language := language,
          voiceId := voiceId, socket := socket,
          sessionId := none }) p language = true ∧
      (∀ j q, j < i →
        (if role = "doctor" then st.waitingPatients
         else st.waitingDoctors).get? j = some q →
        langDiffers (jsSet st.userHeap st.nextRef
          { socketId := socketId, role := role,
            language := language, voiceId := voiceId,
            socket := socket, sessionId := none }) q language =
          false) ∧
      (if role = "doctor" then
        (addUser st socketId role language voiceId socket
          freshSessionId).1.waitingPatients =
          st.waitingPatients.eraseIdx i ∧
        (addUser st socketId role language voiceId socket
          freshSessionId).1.waitingDoctors = st.waitingDoctors
       else
        (addUser st socketId role language voiceId socket
          freshSessionId).1.waitingDoctors =
          st.waitingDoctors.eraseIdx i ∧
        (addUser st socketId role language voiceId socket
          freshSessionId).1.waitingPatients = st.waitingPatients)) ∧
    (findFirstDifferent
        (jsSet st.userHeap st.nextRef
          { socketId := socketId, role := role,
            language := language, voiceId := voiceId,
            socket := socket, sessionId := none })
        (if role = "doctor" then st.waitingPatients
         else st.waitingDoctors) language = none →
      (addUser st socketId role language voiceId socket
        freshSessionId).2 = AddResult.session freshSessionId ∧
      jsGet (addUser st socketId role language voiceId socket
          freshSessionId).1.sessions freshSessionId =
        some { id := freshSessionId,
               doctor := if role = "doctor" then some st.nextRef
                 else none,
               patient := if ¬ role = "doctor" then some st.nextRef
                 else none,
               status := SessStatus.pending } ∧
      (if role = "doctor" then
        (addUser st socketId role language voiceId socket
          freshSessionId).1.waitingDoctors =
          st.waitingDoctors ++ [st.nextRef] ∧
        (addUser st socketId role language voiceId socket
          freshSessionId).1.waitingPatients = st.waitingPatients
       else
        (addUser st socketId role language voiceId socket
          freshSessionId).1.waitingPatients =
          st.waitingPatients ++ [st.nextRef] ∧
        (addUser st socketId role language voiceId socket
          freshSessionId).1.waitingDoctors = st.waitingDoctors)) ∧
    ((∀ p ∈ (if role = "doctor" then st.waitingPatients
        else st.waitingDoctors),
      langDiffers (jsSet st.userHeap st.nextRef
        { socketId := socketId, role := role, language := language,
          voiceId := voiceId, socket := socket,
          sessionId := none }) p language = false) →
      findFirstDifferent
        (jsSet st.userHeap st.nextRef
          { socketId := socketId, role := role,
            language := language, voiceId := voiceId,
            socket := socket, sessionId := none })
        (if role = "doctor" then st.waitingPatients
         else st.waitingDoctors) language = none) := by
  rw [addUser_eq_fresh st socketId role language voiceId socket
    freshSessionId hnorec]
  rcases hrole with hd | hp
  · subst hd
    simp only [eq_self_iff_true, if_true]
    refine ⟨?_, ?_, ?_⟩
    · intro i p hfind
      have hspec := (findFirstDifferent_spec
        (jsSet st.userHeap st.nextRef
          { socketId := socketId, role := "doctor",
            language := language, voiceId := voiceId,
            socket := socket, sessionId := none })
        st.waitingPatients language).1 i p hfind
      unfold addUserFresh
      simp only [eq_self_iff_true, if_true]
      rw [hfind]
      dsimp only
      refine ⟨rfl, ?_, hspec.1, hspec.2.1, hspec.2.2, rfl, rfl⟩
      unfold createSession
      dsimp only
      exact jsGet_jsSet_self _ _ _
    · intro hfind
      unfold addUserFresh
      simp only [eq_self_iff_true, if_true]
      rw [hfind]
      dsimp only
      refine ⟨rfl, ?_, rfl, rfl⟩
      unfold createPendingSession
      dsimp only
      exact jsGet_jsSet_self _ _ _
    · exact (findFirstDifferent_spec _ _ _).2
  · subst hp
    have hne : ¬ ("patient" : String) = "doctor" := by decide
    simp only [if_neg hne]
    refine ⟨?_, ?_, ?_⟩
    · intro i p hfind
      have hspec := (findFirstDifferent_spec
        (jsSet st.userHeap st.nextRef
          { socketId := socketId, role := "patient",
            language := language, voiceId := voiceId,
            socket := socket, sessionId := none })
        st.waitingDoctors language).1 i p hfind
      unfold addUserFresh
      simp only [if_neg hne, eq_self_iff_true, if_true]
      rw [hfind]
      dsimp only
      refine ⟨rfl, ?_, hspec.1, hspec.2.1, hspec.2.2, rfl, rfl⟩
      unfold createSession
      dsimp only
      exact jsGet_jsSet_self _ _ _
    · intro hfind
      unfold addUserFresh
      simp only [if_neg hne, eq_self_iff_true, if_true]
      rw [hfind]
      dsimp only
      refine ⟨rfl, ?_, rfl, rfl⟩
      unfold createPendingSession
      dsimp only
      exact jsGet_jsSet_self _ _ _
    · exact (findFirstDifferent_spec _ _ _).2

def regWaitP : User :=
  { socketId := "p1", role := "patient", language := "en",
    voiceId := "v2", socket := "h2", sessionId := some "pend1" }

/-- A registry with one English patient waiting for a partner. -/
def regWait : Registry :=
  { userHeap := [(0, regWaitP)], users := [("p1", 0)],
    sessions := [("pend1", { id := "pend1", doctor := none,
                             patient := some 0,
                             status := SessStatus.pending })],
    waitingDoctors := [], waitingPatients := [0], nextRef := 1 }

/-- C2 witness: a Turkish doctor joining pairs with the waiting
English patient — first in queue order — forming an active session
of exactly the two, and the patient leaves the waiting list. -/
theorem addUser_pairing_policy_witness :
    (addUser regWait "s3" "doctor" "tr" "v1" "h3" "fresh2").2 =
      AddResult.session "fresh2" ∧
    jsGet (addUser regWait "s3" "doctor" "tr" "v1" "h3"
        "fresh2").1.sessions "fresh2" =
      some { id := "fresh2",
             doctor := some (if ("doctor" : String) = "doctor" then
               regWait.nextRef else 0),
             patient := some (if ("doctor" : String) = "doctor" then
               0 else regWait.nextRef),
             status := SessStatus.active } ∧
    (if ("doctor" : String) = "doctor" then regWait.waitingPatients
     else regWait.waitingDoctors).get? 0 = some 0 ∧
    langDiffers (jsSet regWait.userHeap regWait.nextRef
      { socketId := "s3", role := "doctor", language := "tr",
        voiceId := "v1", socket := "h3", sessionId := none })
      0 "tr" = true ∧
    (∀ j q, j < 0 →
      (if ("doctor" : String) = "doctor" then regWait.waitingPatients
       else regWait.waitingDoctors).get? j = some q →
      langDiffers (jsSet regWait.userHeap regWait.nextRef
        { socketId := "s3", role := "doctor", language := "tr",
          voiceId := "v1", socket := "h3", sessionId := none })
        q "tr" = false) ∧
    (if ("doctor" : String) = "doctor" then
      (addUser regWait "s3" "doctor" "tr" "v1" "h3"
        "fresh2").1.waitingPatients =
        regWait.waitingPatients.eraseIdx 0 ∧
      (addUser regWait "s3" "doctor" "tr" "v1" "h3"
        "fresh2").1.waitingDoctors = regWait.waitingDoctors
     else
      (addUser regWait "s3" "doctor" "tr" "v1" "h3"
        "fresh2").1.waitingDoctors =
        regWait.waitingDoctors.eraseIdx 0 ∧
      (addUser regWait "s3" "doctor" "tr" "v1" "h3"
        "fresh2").1.waitingPatients = regWait.waitingPatients) :=
  (addUser_pairing_policy regWait "s3" "doctor" "tr" "v1" "h3"
    "fresh2" (Or.inl rfl) (Or.inl (by decide))).1 0 0 (by decide)

end VoiceRelay
